import Mathlib

/-
Verification of the Sam interpreter (a tree-walking interpreter for a small
scripting language) against its natural-language specification.

The Rust sources embedded here are src/value.rs, src/context.rs, src/ffi.rs
and src/evaluate.rs.  The embedding is shallow:

* Machine numbers are idealized: the 64-bit `SamInt(i64)` payload becomes an
  unbounded `Int` (no claim under scrutiny concerns integer wrap-around), and
  the IEEE-754 `SamFloat(f64)` payload becomes an exact rational `Rat` (no
  rounding, no NaN and no infinities; `f64::partial_cmp` is `None` only on
  NaN, so in the exact model the numeric comparison is total).
* The tree-sitter syntax tree is replaced by a typed AST.  Node-kind checks
  performed by `expect_node` in the source become constructor typing; the
  source-range fragments interpolated into error messages are dropped.
* A function value in the source stores the byte range of its body and the
  body node is re-located from the retained tree at call time
  (`descendant_for_byte_range`).  Here a body is a key `Nat` and the retained
  tree is a lookup `Nat -> Option (List Stmt)` carried in the context.
* The process boundary (spawning subprocesses, reading manifest files,
  serde_json parsing) is abstracted into an `Ext` record of oracles; the code
  built on top of those oracles (Shell::call, FFI::register_ffi, FFI::call,
  FFI::json_to_value) is embedded from the source.
* Rust `Result` becomes `Except String`; the evaluator threads the context
  explicitly (the source passes `&mut Context`, so a propagated `Err` leaves
  the caller's context in its mutated state - the embedding keeps the context
  alongside the error).  Divergence (unbounded recursion through user
  functions) and panics are modelled by an outer `Option` driven by fuel.

The repository snapshot of src/value.rs and src/context.rs predates the rest
of the sources: evaluate.rs and ffi.rs use `Value::SamString`,
`Value::SamArray`, `Value::SamObject`, `Value::SamForeignFunction`,
`EvalControl::to_value`, `Context::global_scope` and `Value` rendering, none
of which appear in the stale files.  Those missing pieces are reconstructed
below from the specification (each is marked `Modelled from the spec:`);
everything else follows the sources.
-/

namespace Sam

/- ===================== Value model (src/value.rs) ===================== -/

/-- Numbers: `SamInt(i64)` idealized to `Int`, `SamFloat(f64)` idealized to
an exact `Rat`. -/
inductive Number
| samInt (i : Int)
| samFloat (q : Rat)

/-- Rust `Number::as_f64`: promote either payload to the float field. -/
def Number.as_f64 : Number → Rat
| .samInt i => (i : Rat)
| .samFloat q => q

/-- Rust `impl Add for Number`: Int+Int stays Int, else promote to float. -/
def Number.add : Number → Number → Number
| .samInt a, .samInt b => .samInt (a + b)
| a, b => .samFloat (a.as_f64 + b.as_f64)

/-- Rust `impl Sub for Number`. -/
def Number.sub : Number → Number → Number
| .samInt a, .samInt b => .samInt (a - b)
| a, b => .samFloat (a.as_f64 - b.as_f64)

/-- Rust `impl Mul for Number`. -/
def Number.mul : Number → Number → Number
| .samInt a, .samInt b => .samInt (a * b)
| a, b => .samFloat (a.as_f64 * b.as_f64)

/-- Rust `impl Div for Number`: always a float division. -/
def Number.div (a b : Number) : Number :=
  .samFloat (a.as_f64 / b.as_f64)

/-- Exact value of Rust `f64::rem_euclid` for a nonzero divisor: the least
non-negative representative of a modulo the absolute value of b. -/
def remEuclid (a b : Rat) : Rat :=
  a - |b| * (⌊a / |b|⌋ : Int)

/-- Rust `impl Rem for Number`: Int%Int is the i64 `%`, which truncates
toward zero (`Int.tmod`); any float operand uses `f64::rem_euclid` after
promotion. -/
def Number.rem : Number → Number → Number
| .samInt a, .samInt b => .samInt (Int.tmod a b)
| a, b => .samFloat (remEuclid a.as_f64 b.as_f64)

/-- Function values (src/value.rs `struct Function`): the body is kept as a
range into the retained syntax tree (here: a lookup key), plus the ordered
parameter names. -/
structure Function where
  body : Nat
  params : List String

/-- Modelled from the spec: `ForeignFunction` (used throughout evaluate.rs
and ffi.rs but absent from the stale value.rs) holds a command-line template
string. -/
structure ForeignFunction where
  cmd : String

/-- The tagged runtime value.  `samNumber`, `samFunction` and `undefined`
are in the stale src/value.rs; `samString`, `samArray`, `samObject` and
`samForeignFunction` are the variants used by evaluate.rs and ffi.rs,
reconstructed from the spec's data model (section 3). -/
inductive Value
| samNumber (n : Number)
| samString (s : String)
| samFunction (f : Function)
| samForeignFunction (ff : ForeignFunction)
| samArray (elems : List Value)
| samObject (fields : List (String × Value))
| undefined

/-- Rust `impl Add for Value`.  The Number arm is src/value.rs; the String
arm is Modelled from the spec: "String+String → concatenation" (the stale
value.rs has no String variant; src/evaluate.rs's test_string_traits
exercises exactly this arm).  All other pairings give Undefined. -/
def Value.add : Value → Value → Value
| .samNumber a, .samNumber b => .samNumber (a.add b)
| .samString a, .samString b => .samString (a ++ b)
| _, _ => .undefined

/-- Rust `impl Sub for Value`. -/
def Value.sub : Value → Value → Value
| .samNumber a, .samNumber b => .samNumber (a.sub b)
| _, _ => .undefined

/-- Rust `impl Mul for Value`. -/
def Value.mul : Value → Value → Value
| .samNumber a, .samNumber b => .samNumber (a.mul b)
| _, _ => .undefined

/-- Rust `impl Div for Value`. -/
def Value.div : Value → Value → Value
| .samNumber a, .samNumber b => .samNumber (a.div b)
| _, _ => .undefined

/-- Rust `impl Rem for Value`: explicit zero check on the divisor (Int 0 or
float equal to 0.0 gives Undefined), then the Number remainder. -/
def Value.rem : Value → Value → Value
| .samNumber a, .samNumber b =>
    match b with
    | .samInt i => if i = 0 then .undefined else .samNumber (a.rem (.samInt i))
    | .samFloat f => if f = 0 then .undefined else .samNumber (a.rem (.samFloat f))
| _, _ => .undefined

/-- Rust `impl PartialEq for Number`: compare by promoted float value. -/
def Number.beq (a b : Number) : Bool :=
  a.as_f64 = b.as_f64

/-- Rust `impl PartialOrd for Number` (`partial_cmp`): compare the promoted
float values.  `f64::partial_cmp` is `None` exactly on NaN, which the exact
rational model does not contain, so the result is always `some`. -/
def Number.pcmp (a b : Number) : Option Ordering :=
  if a.as_f64 < b.as_f64 then some .lt
  else if a.as_f64 = b.as_f64 then some .eq
  else some .gt

/-- Rust `impl PartialEq for Value`: Numbers by promoted value,
Undefined equals Undefined; the String arm ("by content") is Modelled from
the spec since the stale value.rs lacks the variant; every other pairing is
unequal (the spec leaves Array/Object structural equality as an open
extension point and the stale source returns false there). -/
def Value.beq : Value → Value → Bool
| .samNumber a, .samNumber b => a.beq b
| .samString a, .samString b => a = b
| .undefined, .undefined => true
| _, _ => false

/-- Rust `impl PartialOrd for Value` (`partial_cmp`): only Number-Number
pairs are ordered; everything else is incomparable (`None`). -/
def Value.pcmp : Value → Value → Option Ordering
| .samNumber a, .samNumber b => a.pcmp b
| _, _ => none

/-- Rust `<` as derived from `PartialOrd`: true iff `partial_cmp` is
`Some(Less)`. -/
def Value.ltb (a b : Value) : Bool :=
  match a.pcmp b with
  | some .lt => true
  | _ => false

/-- Rust `>` as derived from `PartialOrd`. -/
def Value.gtb (a b : Value) : Bool :=
  match a.pcmp b with
  | some .gt => true
  | _ => false

/-- Rust `<=` as derived from `PartialOrd`: `Some(Less | Equal)`. -/
def Value.leb (a b : Value) : Bool :=
  match a.pcmp b with
  | some .lt => true
  | some .eq => true
  | _ => false

/-- Rust `>=` as derived from `PartialOrd`: `Some(Greater | Equal)`. -/
def Value.geb (a b : Value) : Bool :=
  match a.pcmp b with
  | some .gt => true
  | some .eq => true
  | _ => false

/-- Rust `impl From<bool> for Value`: re-encode a boolean as Int 0/1. -/
def Value.ofBool (b : Bool) : Value :=
  .samNumber (.samInt (if b then 1 else 0))

/-- Modelled from the spec: boolean coercion for the logical operators
(`impl From<Value> for bool` is absent from the stale value.rs) - "treat
Int 0 as false, any nonzero Int as true"; a non-Number operand coerces to
false. -/
def Value.toBool : Value → Bool
| .samNumber n => decide (n.as_f64 ≠ 0)
| _ => false

/-- Modelled from the spec: attribute access (`Value::get_attr` is absent
from the stale value.rs) - legal only on an Object; an absent key is an
"unknown attribute" failure, a non-Object receiver a "not attributable"
failure. -/
def Value.get_attr (v : Value) (key : String) : Except String Value :=
  match v with
  | .samObject fields =>
      match (fields.find? (fun p => p.1 = key)).map Prod.snd with
      | some w => .ok w
      | none => .error ("Unknown attribute " ++ key)
  | _ => .error ("Value is not attributable")

/-- Modelled from the spec: the Value-to-string textual rendering used when
foreign/shell arguments are serialized (the `Display` impl is absent from
the stale value.rs).  The claims under verification never inspect the
rendered text, only which external call receives it. -/
def Value.render : Value → String
| .samNumber (.samInt i) => toString i
| .samNumber (.samFloat q) => toString q
| .samString s => s
| .samFunction _ => "function"
| .samForeignFunction ff => ff.cmd
| .samArray _ => "array"
| .samObject _ => "object"
| .undefined => "undefined"

/- ===================== Syntax tree ===================== -/

/-
The external parser's product: a typed abstract syntax tree.  Kinds and
fields follow the node kinds consumed by evaluate.rs (spec section 6).
Literal payloads (number text parsing, string-fragment escape decoding in
evaluate_number / evaluate_string) are at the parser boundary and appear
here already decoded.
-/

/-- A literal node: number or string (evaluate_literal in evaluate.rs). -/
inductive Lit
| num (n : Number)
| str (s : String)

mutual

/-- Expression nodes dispatched by evaluate_expression. -/
inductive Expr
| lit (l : Lit)
| binary (left : Expr) (op : String) (right : Expr)
| ifExpr (condition : Expr) (consequence : List Stmt) (elseArm : Option ElseArm)
| lambda (params : List String) (body : Nat)
| call (func : Expr) (args : List Expr)
| ident (name : String)
| nested (parent : Expr) (name : String)
| arrayExpr (items : List Expr)

/-- The else arm of an if_expression: a statement block or a chained
if_expression (any other node kind is rejected by evaluate_if_expression,
which the typing here makes unrepresentable). -/
inductive ElseArm
| block (stmts : List Stmt)
| elif (condition : Expr) (consequence : List Stmt) (elseArm : Option ElseArm)

/-- Statement nodes dispatched by evaluate_statement. -/
inductive Stmt
| exprStmt (e : Expr)
| varDecl (declarators : List Declarator)
| assign (lhs : String) (rhs : Expr)
| ret (value : Option Expr)

/-- A variable_declarator: field `variable` plus optional field `value`. -/
inductive Declarator
| mk (varName : String) (value : Option Expr)

end

/-- A top-level child of the source_file node: the `interfaces` block (only
meaningful as the first child) or an ordinary statement. -/
inductive TopItem
| interfaces (decls : List (String × String))
| stmt (s : Stmt)

/- ===================== Scope stack (src/context.rs) ===================== -/

/-- One frame: the Rust `SymbolTable = HashMap<String, Value>`, modelled as
an association list with unique keys maintained by replace-or-append
insertion. -/
abbrev Scope := List (String × Value)

/-- HashMap lookup. -/
def Scope.get (s : Scope) (k : String) : Option Value :=
  (s.find? (fun p => p.1 = k)).map Prod.snd

/-- HashMap insert: overwrite the existing binding in place, else append. -/
def Scope.insert (s : Scope) (k : String) (v : Value) : Scope :=
  match s with
  | [] => [(k, v)]
  | (k', v') :: t => if k' = k then (k, v) :: t else (k', v') :: Scope.insert t k v

/-- The evaluation context: the scope stack (index 0 is the global frame,
the last entry is the top of the stack, matching Vec push/pop order) plus
the retained syntax tree, used to re-locate function bodies by range. -/
structure Ctx where
  call_stack : List Scope
  tree : Nat → Option (List Stmt)

/-- Context::new: a fresh context with the global scope pushed. -/
def Ctx.new (tree : Nat → Option (List Stmt)) : Ctx :=
  { call_stack := [[]], tree := tree }

/-- Context::init_scope: push a new empty frame on top. -/
def Ctx.init_scope (c : Ctx) : Ctx :=
  { c with call_stack := c.call_stack ++ [[]] }

/-- Context::destroy_scope: pop the topmost frame (Vec::pop is a no-op on an
empty stack). -/
def Ctx.destroy_scope (c : Ctx) : Ctx :=
  { c with call_stack := c.call_stack.dropLast }

/-- Apply a mutation to the last (topmost) frame.  Rust's
`current_scope()` unwraps and would panic on an empty stack; evaluation
never reaches that state since the global frame is pushed at creation and
pops are paired with pushes. -/
def modifyLast (f : Scope → Scope) : List Scope → List Scope
| [] => []
| [s] => [f s]
| s :: rest => s :: modifyLast f rest

/-- `current_scope().insert(k, v)`. -/
def Ctx.insertCurrent (c : Ctx) (k : String) (v : Value) : Ctx :=
  { c with call_stack := modifyLast (fun s => s.insert k v) c.call_stack }

/-- `current_scope().get(k)` (reading the topmost frame). -/
def Ctx.currentGet (c : Ctx) (k : String) : Option Value :=
  c.call_stack.getLast?.bind (fun s => s.get k)

/-- Context::search_in_stack, read side: walk the frames from the top of
the stack downwards and return the first binding found. -/
def searchFrames : List Scope → String → Option Value
| [], _ => none
| s :: rest, k =>
    match s.get k with
    | some v => some v
    | none => searchFrames rest k

/-- search_in_stack iterates `call_stack.iter_mut().rev()`. -/
def Ctx.search_in_stack (c : Ctx) (k : String) : Option Value :=
  searchFrames c.call_stack.reverse k

/-- Context::search_in_stack, write side (the returned `&mut Value` being
assigned through, as evaluate_assignment does): update the binding in the
topmost frame that contains the name; `none` if no frame does. -/
def assignFrames : List Scope → String → Value → Option (List Scope)
| [], _, _ => none
| s :: rest, k, v =>
    if (s.get k).isSome then some (s.insert k v :: rest)
    else (assignFrames rest k v).map (fun t => s :: t)

/-- Assignment through the scope stack (frames walked top-down). -/
def Ctx.assign (c : Ctx) (k : String) (v : Value) : Option Ctx :=
  (assignFrames c.call_stack.reverse k v).map
    (fun st => { c with call_stack := st.reverse })

/-- Modelled from the spec: `Context::global_scope` (used by
evaluate_call_expression and absent from the stale context.rs) - a
reference to frame 0, "the lowest frame", used for FFI lookups so foreign
functions remain visible regardless of call depth.  Reading through it: -/
def Ctx.globalGet (c : Ctx) (k : String) : Option Value :=
  match c.call_stack with
  | [] => none
  | g :: _ => g.get k

/- ===================== JSON model (serde_json boundary) ===================== -/

/-- A serde_json number: `as_i64` answers on the integral payload, `as_f64`
on the rest (the arbitrary-precision case that fails both is not
representable here). -/
inductive JNum
| int (i : Int)
| float (q : Rat)

mutual

/-- A parsed serde_json::Value. -/
inductive Json
| null
| bool (b : Bool)
| str (s : String)
| num (n : JNum)
| arr (a : JArr)
| obj (o : JObj)

/-- The elements of a JSON array. -/
inductive JArr
| nil
| cons (hd : Json) (tl : JArr)

/-- The members of a JSON object, in document order. -/
inductive JObj
| nil
| cons (key : String) (val : Json) (tl : JObj)

end

/-- serde_json `get` on an object (None on any other shape). -/
def JObj.get : JObj → String → Option Json
| .nil, _ => none
| .cons k v t, key => if k = key then some v else JObj.get t key

/-- `json.get(name)` as used by register_ffi. -/
def Json.get : Json → String → Option Json
| .obj o, key => o.get key
| _, _ => none

/-- serde_json `as_str`. -/
def Json.as_str : Json → Option String
| .str s => some s
| _ => none

/- ===================== External-process oracles ===================== -/

/-- The captured output of a spawned process (std::process::Output):
`code` is `None` when the process terminated without a normal exit code. -/
structure ProcOut where
  stdout : String
  stderr : String
  code : Option Int

/-- The process/file-system/serde boundary, abstracted as oracles: spawning
a command with arguments (error = failure to spawn, carrying the OS error
text), reading a file, and parsing text as JSON. -/
structure Ext where
  runProcess : String → List String → Except String ProcOut
  readFile : String → Option String
  parseJson : String → Option Json

/- ===================== FFI / Shell bridge (src/ffi.rs) ===================== -/

/-- Shell::call: spawn `name` with the rendered arguments as literal argv
entries; only a spawn failure is an error; otherwise package stdout, stderr
and the exit status (or -1) as a three-field Object. -/
def Shell.call (ext : Ext) (name : String) (args : List Value) : Except String Value :=
  match ext.runProcess name (args.map Value.render) with
  | .error e => .error e
  | .ok out =>
      .ok (.samObject
        [("stdout", .samString out.stdout),
         ("stderr", .samString out.stderr),
         ("status", .samNumber (.samInt (out.code.getD (-1))))])

mutual

/-- FFI::json_to_value: recursive JSON-to-Value conversion.  The array arm
is `todo!()` in the source - an unconditional panic - modelled as `none`;
the arbitrary-precision number failure branch of the source is not
representable in the JSON model here. -/
def FFI.json_to_value : Json → Option (Except String Value)
| .null => some (.ok .undefined)
| .bool b => some (.ok (.samNumber (.samInt (if b then 1 else 0))))
| .str s => some (.ok (.samString s))
| .arr _ => none
| .obj o =>
    match FFI.jobj_to_value o with
    | none => none
    | some (.error m) => some (.error m)
    | some (.ok fields) => some (.ok (.samObject fields))
| .num (.int i) => some (.ok (.samNumber (.samInt i)))
| .num (.float q) => some (.ok (.samNumber (.samFloat q)))

/-- The member-wise collection inside FFI::json_to_value's object arm
(`collect::<Result<_, String>>`, failing fast on the first error). -/
def FFI.jobj_to_value : JObj → Option (Except String (List (String × Value)))
| .nil => some (.ok [])
| .cons k v t =>
    match FFI.json_to_value v with
    | none => none
    | some (.error m) => some (.error m)
    | some (.ok w) =>
        match FFI.jobj_to_value t with
        | none => none
        | some (.error m) => some (.error m)
        | some (.ok rest) => some (.ok ((k, w) :: rest))

end

/-- FFI::register_ffi: read the manifest at `path`, parse it as JSON, look
up `name`, require a string entry, and install a ForeignFunction into the
current scope of the supplied context. -/
def FFI.register_ffi (ext : Ext) (path name : String) (c : Ctx) : Except String Ctx :=
  match ext.readFile path with
  | none => .error ("There was an error in reading from " ++ path ++ ".")
  | some contents =>
      match ext.parseJson contents with
      | none => .error ("There was an error in parsing " ++ name ++ " from " ++ path ++ ".")
      | some json =>
          match (json.get name).bind Json.as_str with
          | none => .error "Interface entry must be a string"
          | some cmd => .ok (c.insertCurrent name (.samForeignFunction ⟨cmd⟩))

/-- FFI::call: run the command template with the rendered arguments through
`sh -c`, then parse stdout as JSON and convert it (`json_to_value` may
panic, hence the outer Option). -/
def FFI.call (ext : Ext) (f : ForeignFunction) (args : List Value) : Option (Except String Value) :=
  let full := f.cmd ++ " " ++ String.intercalate " " (args.map Value.render)
  match ext.runProcess "sh" ["-c", full] with
  | .error e => some (.error e)
  | .ok out =>
      match ext.parseJson out.stdout with
      | none => some (.error ("There was an error in parsing the output of `" ++ f.cmd ++ "`."))
      | some j => FFI.json_to_value j

/- ===================== Evaluator (src/evaluate.rs) ===================== -/

/-- Modelled from the spec: the control signal threaded out of every
statement/block evaluation (the `EvalControl` type lives in the current
context.rs, absent from the stale snapshot): a plain value that falls
through, or a Return demanding an early exit. -/
inductive EvalControl
| value (v : Value)
| ret (v : Value)

/-- Modelled from the spec: `EvalControl::to_value` unwraps either signal to
its payload (src/evaluate.rs's test_nested_return pins the Return case:
a call's Return signal is unwrapped by the declarator that consumes it). -/
def EvalControl.to_value : EvalControl → Value
| .value v => v
| .ret v => v

/-- The result of one evaluation step: `none` models divergence or a panic
(fuel exhaustion); otherwise the `Result` together with the context in the
state the mutation left it (the source passes `&mut Context`, so an `Err`
still leaves the caller's context mutated). -/
abbrev EvalRes (α : Type) := Option (Except String α × Ctx)

/-- Success. -/
def pureE {α : Type} (a : α) (c : Ctx) : EvalRes α :=
  some (.ok a, c)

/-- Failure (keeping the mutated context). -/
def errE {α : Type} (m : String) (c : Ctx) : EvalRes α :=
  some (.error m, c)

/-- Rust's `?` on a sub-evaluation: propagate divergence and errors,
continue on success. -/
def bindE {α β : Type} (r : EvalRes α) (k : α → Ctx → EvalRes β) : EvalRes β :=
  match r with
  | none => none
  | some (.error m, c) => some (.error m, c)
  | some (.ok a, c) => k a c

/-- A literal node's value (evaluate_literal). -/
def litValue : Lit → Value
| .num n => .samNumber n
| .str s => .samString s

/-- The operator match of evaluate_binary_expression, applied to the two
unwrapped operand values. -/
def applyBinop (op : String) (l r : Value) : Except String Value :=
  match op with
  | "+" => .ok (l.add r)
  | "-" => .ok (l.sub r)
  | "*" => .ok (l.mul r)
  | "/" => .ok (l.div r)
  | "%" => .ok (l.rem r)
  | "<" => .ok (.ofBool (l.ltb r))
  | ">" => .ok (.ofBool (l.gtb r))
  | "==" => .ok (.ofBool (l.beq r))
  | "<=" => .ok (.ofBool (l.leb r))
  | ">=" => .ok (.ofBool (l.geb r))
  | "!=" => .ok (.ofBool (!(l.beq r)))
  | "&&" => .ok (.ofBool (l.toBool && r.toBool))
  | "||" => .ok (.ofBool (l.toBool || r.toBool))
  | _ => .error "Unknown operator"

/-- `entry(ident).or_insert(Value::Undefined)` on the current scope: insert
a default only when the name is not yet bound in the topmost frame. -/
def Ctx.orInsertCurrent (c : Ctx) (k : String) (v : Value) : Ctx :=
  { c with call_stack :=
      modifyLast (fun s => match s.get k with
        | some _ => s
        | none => s.insert k v) c.call_stack }

/-- The tail of evaluate_call_expression once the function-position result
was not a Function value: the command name must be a bare identifier
(anything else is the "Invalid shell command" fault); a ForeignFunction
registered under that name in the global frame dispatches through FFI::call,
anything else through the literal Shell::call fallback. -/
def callFallback (ext : Ext) (vs : List Value) (fn : Expr) (c₂ : Ctx) : EvalRes EvalControl :=
  match fn with
  | .ident name =>
      (match c₂.globalGet name with
       | some (.samForeignFunction ff) =>
           match FFI.call ext ff vs with
           | none => none
           | some (.ok v) => pureE (.value v) c₂
           | some (.error m) => errE m c₂
       | _ =>
           match Shell.call ext name vs with
           | .ok v => pureE (.value v) c₂
           | .error m => errE m c₂)
  | _ => errE "Invalid shell command" c₂

/-- The optional pre-seeding of a freshly pushed frame with call-argument
bindings at the top of evaluate_statement_block: each (name, value) pair is
inserted into the current scope in order. -/
def seedScope (bindings : Option (List (String × Value))) (c : Ctx) : Ctx :=
  match bindings with
  | none => c
  | some bs => bs.foldl (fun acc nv => acc.insertCurrent nv.1 nv.2) c

/-- The mutually recursive evaluation functions of evaluate.rs, bundled so
that the fuel recursion is a single structural recursion on `Nat`: the
family at fuel f+1 calls the family at fuel f wherever the source
recurses. -/
structure Evaluators where
  eExpr : Expr → Ctx → EvalRes EvalControl
  eStmt : Stmt → Ctx → EvalRes EvalControl
  eStmts : List Stmt → Ctx → EvalRes EvalControl
  eBlock : List Stmt → Option (List (String × Value)) → Ctx → EvalRes EvalControl
  eBinary : Expr → String → Expr → Ctx → EvalRes Value
  eIf : Expr → List Stmt → Option ElseArm → Ctx → EvalRes EvalControl
  eCall : Expr → List Expr → Ctx → EvalRes EvalControl
  eArgs : List Expr → Ctx → EvalRes (List Value)
  eItems : List Expr → Ctx → EvalRes (List Value)
  eDecl : Declarator → Ctx → EvalRes Unit
  eDecls : List Declarator → Ctx → EvalRes Unit

/-- One unfolding of the evaluator: each field is the transliteration of the
corresponding function of evaluate.rs, with `p` standing for every recursive
call. -/
def step (ext : Ext) (p : Evaluators) : Evaluators where
  /- evaluate_expression -/
  eExpr := fun e c =>
    match e with
    | .lit l => pureE (.value (litValue l)) c
    | .binary l op r => bindE (p.eBinary l op r c) (fun v c₁ => pureE (.value v) c₁)
    | .ifExpr cond cons els => p.eIf cond cons els c
    | .lambda ps body => pureE (.value (.samFunction ⟨body, ps⟩)) c
    | .call fn args => p.eCall fn args c
    | .ident n =>
        match c.search_in_stack n with
        | some v => pureE (.value v) c
        | none => errE ("Variable " ++ n ++ " not defined") c
    | .nested parent name =>
        /- evaluate_nested_identifier -/
        bindE (p.eExpr parent c) (fun ctrl c₁ =>
          match ctrl.to_value.get_attr name with
          | .ok v => pureE (.value v) c₁
          | .error m => errE m c₁)
    | .arrayExpr items =>
        /- evaluate_array_expression -/
        bindE (p.eItems items c) (fun vs c₁ => pureE (.value (.samArray vs)) c₁)
  /- evaluate_statement -/
  eStmt := fun s c =>
    match s with
    | .exprStmt e => p.eExpr e c
    | .varDecl ds => bindE (p.eDecls ds c) (fun _ c₁ => pureE (.value .undefined) c₁)
    | .assign lhs rhs =>
        /- evaluate_assignment -/
        bindE (p.eExpr rhs c) (fun ctrl c₁ =>
          match c₁.assign lhs ctrl.to_value with
          | none => errE "Assigning to undefined variable" c₁
          | some c₂ => pureE (.value ctrl.to_value) c₂)
    | .ret (some e) =>
        /- evaluate_return_statement -/
        bindE (p.eExpr e c) (fun ctrl c₁ => pureE (.ret ctrl.to_value) c₁)
    | .ret none => pureE (.ret .undefined) c
  /- the statement loop inside evaluate_statement_block -/
  eStmts := fun ss c =>
    match ss with
    | [] => pureE (.value .undefined) c
    | s :: rest =>
        bindE (p.eStmt s c) (fun ctrl c₁ =>
          match ctrl with
          | .value _ => p.eStmts rest c₁
          | .ret v => pureE (.ret v) c₁)
  /- evaluate_statement_block: init_scope, optional pre-seeded bindings,
     the loop, and destroy_scope on the Return and fall-through exits; a
     propagated statement error leaves without destroy_scope -/
  eBlock := fun ss bindings c =>
    match p.eStmts ss (seedScope bindings c.init_scope) with
    | none => none
    | some (.error m, c₃) => some (.error m, c₃)
    | some (.ok (.ret v), c₃) => pureE (.ret v) c₃.destroy_scope
    | some (.ok (.value _), c₃) => pureE (.value .undefined) c₃.destroy_scope
  /- evaluate_binary_expression: left, then right, then the operator -/
  eBinary := fun l op r c =>
    bindE (p.eExpr l c) (fun cl c₁ =>
      bindE (p.eExpr r c₁) (fun cr c₂ =>
        match applyBinop op cl.to_value cr.to_value with
        | .ok v => pureE v c₂
        | .error m => errE m c₂))
  /- evaluate_if_expression -/
  eIf := fun cond cons els c =>
    bindE (p.eExpr cond c) (fun ctrl c₁ =>
      match ctrl.to_value with
      | .samNumber (.samInt i) =>
          if i ≠ 0 then p.eBlock cons none c₁
          else
            match els with
            | some (.block b) => p.eBlock b none c₁
            | some (.elif cond2 cons2 els2) => p.eIf cond2 cons2 els2 c₁
            | none => pureE (.value .undefined) c₁
      | _ => errE "Condition must be integer" c₁)
  /- evaluate_call_expression: arguments first, then the function-position
     expression; a non-Function outcome (error included) is discarded and
     the FFI / shell fallback dispatches on the bare identifier -/
  eCall := fun fn args c =>
    bindE (p.eArgs args c) (fun vs c₁ =>
      match p.eExpr fn c₁ with
      | none => none
      | some (.ok (.value (.samFunction f)), c₂) =>
          if vs.length ≠ f.params.length then errE "Argument count mismatch" c₂
          else
            match c₂.tree f.body with
            | none => errE "Function body not found" c₂
            | some body => p.eBlock body (some (f.params.zip vs)) c₂
      | some (_, c₂) => callFallback ext vs fn c₂)
  /- Function::extract_args -/
  eArgs := fun es c =>
    match es with
    | [] => pureE [] c
    | e :: rest =>
        bindE (p.eExpr e c) (fun ctrl c₁ =>
          match ctrl with
          | .value v => bindE (p.eArgs rest c₁) (fun vs c₂ => pureE (v :: vs) c₂)
          | .ret _ => errE "Unexpected return expression." c₁)
  /- the element loop of evaluate_array_expression -/
  eItems := fun es c =>
    match es with
    | [] => pureE [] c
    | e :: rest =>
        bindE (p.eExpr e c) (fun ctrl c₁ =>
          match ctrl with
          | .value v => bindE (p.eItems rest c₁) (fun vs c₂ => pureE (v :: vs) c₂)
          | .ret _ => errE "Unexpected return statement." c₁)
  /- evaluate_variable_declarator: optional initializer, then
     entry(..).or_insert(Undefined), then the overwrite when a value exists -/
  eDecl := fun d c =>
    match d with
    | .mk name none => pureE () (c.orInsertCurrent name .undefined)
    | .mk name (some e) =>
        bindE (p.eExpr e c) (fun ctrl c₁ =>
          pureE () ((c₁.orInsertCurrent name .undefined).insertCurrent name ctrl.to_value))
  /- the declarator loop of evaluate_variable_declaration -/
  eDecls := fun ds c =>
    match ds with
    | [] => pureE () c
    | d :: rest => bindE (p.eDecl d c) (fun _ c₁ => p.eDecls rest c₁)

/-- The evaluator family at a given fuel: everything diverges at fuel 0 and
one `step` is peeled per level. -/
def evals (ext : Ext) : Nat → Evaluators
| 0 =>
    { eExpr := fun _ _ => none
      eStmt := fun _ _ => none
      eStmts := fun _ _ => none
      eBlock := fun _ _ _ => none
      eBinary := fun _ _ _ _ => none
      eIf := fun _ _ _ _ => none
      eCall := fun _ _ _ => none
      eArgs := fun _ _ => none
      eItems := fun _ _ => none
      eDecl := fun _ _ => none
      eDecls := fun _ _ => none }
| f + 1 => step ext (evals ext f)

/-- evaluate_expression at a given fuel. -/
def evaluate_expression (ext : Ext) (fuel : Nat) : Expr → Ctx → EvalRes EvalControl :=
  (evals ext fuel).eExpr

/-- evaluate_statement at a given fuel. -/
def evaluate_statement (ext : Ext) (fuel : Nat) : Stmt → Ctx → EvalRes EvalControl :=
  (evals ext fuel).eStmt

/-- evaluate_statement_block at a given fuel. -/
def evaluate_statement_block (ext : Ext) (fuel : Nat) :
    List Stmt → Option (List (String × Value)) → Ctx → EvalRes EvalControl :=
  (evals ext fuel).eBlock

/-- evaluate_binary_expression at a given fuel. -/
def evaluate_binary_expression (ext : Ext) (fuel : Nat) :
    Expr → String → Expr → Ctx → EvalRes Value :=
  (evals ext fuel).eBinary

/-- evaluate_call_expression at a given fuel. -/
def evaluate_call_expression (ext : Ext) (fuel : Nat) :
    Expr → List Expr → Ctx → EvalRes EvalControl :=
  (evals ext fuel).eCall

/-- Function::extract_args at a given fuel. -/
def extract_args (ext : Ext) (fuel : Nat) : List Expr → Ctx → EvalRes (List Value) :=
  (evals ext fuel).eArgs

/-- evaluate_variable_declarator at a given fuel. -/
def evaluate_variable_declarator (ext : Ext) (fuel : Nat) : Declarator → Ctx → EvalRes Unit :=
  (evals ext fuel).eDecl

/- ===================== Whole-program evaluation ===================== -/

/-- evaluate_interfaces / evaluate_interface: register each
(path, module-name) declaration in order, failing fast. -/
def evaluate_interfaces (ext : Ext) : List (String × String) → Ctx → Except String Ctx
| [], c => .ok c
| (path, modName) :: rest, c =>
    match FFI.register_ffi ext path modName c with
    | .error m => .error m
    | .ok c₁ => evaluate_interfaces ext rest c₁

/-- The loop over the remaining top-level children in `evaluate`: a plain
value falls through, a Return signal is the "Return outside function"
fault, and an `interfaces` node in non-first position hits the unknown
statement arm of evaluate_statement. -/
def evalRest (ext : Ext) : Nat → List TopItem → Ctx → Option (Except String Ctx)
| 0, _, _ => none
| _ + 1, [], c => some (.ok c)
| f + 1, item :: rest, c =>
    let r := match item with
      | .stmt s => (evals ext f).eStmt s c
      | .interfaces _ => errE "Unknown statement" c
    match r with
    | none => none
    | some (.error m, _) => some (.error m)
    | some (.ok (.value _), c₁) => evalRest ext f rest c₁
    | some (.ok (.ret _), _) => some (.error "Return outside function")

/-- `evaluate`: build a fresh context (global frame pushed), treat the first
top-level child specially (an `interfaces` block is registered; any other
statement is evaluated and its control signal discarded), then run the
remaining children through the Return-checking loop. -/
def evaluate (ext : Ext) (fuel : Nat) (tree : Nat → Option (List Stmt))
    (children : List TopItem) : Option (Except String Ctx) :=
  match fuel with
  | 0 => none
  | f + 1 =>
    let c := Ctx.new tree
    match children with
    | [] => some (.ok c)
    | first :: rest =>
        match first with
        | .interfaces ds =>
            match evaluate_interfaces ext ds c with
            | .error m => some (.error m)
            | .ok c₁ => evalRest ext f rest c₁
        | .stmt s =>
            match (evals ext f).eStmt s c with
            | none => none
            | some (.error m, _) => some (.error m)
            | some (.ok _, c₁) => evalRest ext f rest c₁

/- ===================== Scope-depth invariant ===================== -/

/-- Depth bookkeeping for one evaluation: on success the scope stack is as
deep as before, on error it is at least as deep (errors never net-destroy
frames below the starting depth); divergence claims nothing. -/
def DepthOk {α : Type} (c : Ctx) (r : EvalRes α) : Prop :=
  match r with
  | none => True
  | some (.ok _, c') => c'.call_stack.length = c.call_stack.length
  | some (.error _, c') => c.call_stack.length ≤ c'.call_stack.length

/-- The sharper bookkeeping for a statement block: a propagated error skips
destroy_scope, so the stack is then strictly deeper than on entry. -/
def DepthLeak {α : Type} (c : Ctx) (r : EvalRes α) : Prop :=
  match r with
  | none => True
  | some (.ok _, c') => c'.call_stack.length = c.call_stack.length
  | some (.error _, c') => c.call_stack.length + 1 ≤ c'.call_stack.length

theorem DepthLeak.toDepthOk {α : Type} {c : Ctx} {r : EvalRes α}
    (h : DepthLeak c r) : DepthOk c r := by
  cases r with
  | none => trivial
  | some rc =>
      obtain ⟨res, c'⟩ := rc
      cases res with
      | ok a => exact h
      | error m =>
          have h' : c.call_stack.length + 1 ≤ c'.call_stack.length := h
          show c.call_stack.length ≤ c'.call_stack.length
          omega

theorem depthOk_ok {α : Type} {c c' : Ctx} {a : α}
    (h : c'.call_stack.length = c.call_stack.length) : DepthOk c (some (.ok a, c')) := h

theorem depthOk_err {α : Type} {c c' : Ctx} {m : String}
    (h : c.call_stack.length ≤ c'.call_stack.length) :
    DepthOk c (some (Except.error m, c') : EvalRes α) := h

theorem depthOk_pure {α : Type} {c : Ctx} {a : α} : DepthOk c (pureE a c) := rfl

theorem depthOk_errE {α : Type} {c : Ctx} {m : String} :
    DepthOk c (errE m c : EvalRes α) := le_refl _

theorem depthOk_congr {α : Type} {c c' : Ctx} {r : EvalRes α}
    (hlen : c'.call_stack.length = c.call_stack.length)
    (h : DepthOk c' r) : DepthOk c r := by
  unfold DepthOk at h ⊢
  split at h <;> simp_all

theorem depthOk_bind {α β : Type} {c : Ctx} {r : EvalRes α} {k : α → Ctx → EvalRes β}
    (h1 : DepthOk c r) (h2 : ∀ a c', DepthOk c' (k a c')) : DepthOk c (bindE r k) := by
  cases r with
  | none => trivial
  | some rc =>
      obtain ⟨res, c'⟩ := rc
      cases res with
      | error m => exact h1
      | ok a => exact depthOk_congr h1 (h2 a c')

/- length bookkeeping for the context operations -/

theorem modifyLast_length (f : Scope → Scope) :
    ∀ st : List Scope, (modifyLast f st).length = st.length := by
  intro st
  induction st with
  | nil => rfl
  | cons s rest ih =>
      cases rest with
      | nil => rfl
      | cons a t => simpa [modifyLast] using ih

theorem insertCurrent_length (c : Ctx) (k : String) (v : Value) :
    (c.insertCurrent k v).call_stack.length = c.call_stack.length := by
  simp [Ctx.insertCurrent, modifyLast_length]

theorem orInsertCurrent_length (c : Ctx) (k : String) (v : Value) :
    (c.orInsertCurrent k v).call_stack.length = c.call_stack.length := by
  simp [Ctx.orInsertCurrent, modifyLast_length]

theorem foldl_insertCurrent_length (bs : List (String × Value)) :
    ∀ c : Ctx, ((bs.foldl (fun acc nv => acc.insertCurrent nv.1 nv.2) c).call_stack.length
      = c.call_stack.length) := by
  induction bs with
  | nil => intro c; rfl
  | cons b t ih =>
      intro c
      simpa [List.foldl_cons, insertCurrent_length] using ih (c.insertCurrent b.1 b.2)

theorem seedScope_length (bs : Option (List (String × Value))) (c : Ctx) :
    (seedScope bs c).call_stack.length = c.call_stack.length := by
  cases bs with
  | none => rfl
  | some l => exact foldl_insertCurrent_length l c

theorem init_scope_length (c : Ctx) :
    (c.init_scope).call_stack.length = c.call_stack.length + 1 := by
  simp [Ctx.init_scope]

theorem destroy_scope_length (c : Ctx) :
    (c.destroy_scope).call_stack.length = c.call_stack.length - 1 := by
  simp [Ctx.destroy_scope]

theorem assignFrames_length {k : String} {v : Value} :
    ∀ {st st' : List Scope}, assignFrames st k v = some st' → st'.length = st.length := by
  intro st
  induction st with
  | nil => intro st' h; simp [assignFrames] at h
  | cons s rest ih =>
      intro st' h
      unfold assignFrames at h
      by_cases hs : (s.get k).isSome
      · simp [hs] at h
        subst h
        rfl
      · simp [hs] at h
        obtain ⟨t, ht, rfl⟩ := h
        simpa using ih ht

theorem ctx_assign_length {c c' : Ctx} {k : String} {v : Value}
    (h : c.assign k v = some c') : c'.call_stack.length = c.call_stack.length := by
  unfold Ctx.assign at h
  match ha : assignFrames c.call_stack.reverse k v with
  | none => rw [ha] at h; simp at h
  | some st =>
      rw [ha] at h
      simp at h
      have := assignFrames_length ha
      subst h
      simpa using this

/-- The conjunction of depth invariants for one whole evaluator family:
every evaluation form preserves the depth on success and never shrinks it on
error; a statement block strictly leaks on error; evaluating a bare
identifier never touches the context at all. -/
def GoodE (h : Evaluators) : Prop :=
  (∀ e c, DepthOk c (h.eExpr e c)) ∧
  (∀ s c, DepthOk c (h.eStmt s c)) ∧
  (∀ ss c, DepthOk c (h.eStmts ss c)) ∧
  (∀ ss bs c, DepthLeak c (h.eBlock ss bs c)) ∧
  (∀ l op r c, DepthOk c (h.eBinary l op r c)) ∧
  (∀ cond cons els c, DepthOk c (h.eIf cond cons els c)) ∧
  (∀ fn args c, DepthOk c (h.eCall fn args c)) ∧
  (∀ es c, DepthOk c (h.eArgs es c)) ∧
  (∀ es c, DepthOk c (h.eItems es c)) ∧
  (∀ d c, DepthOk c (h.eDecl d c)) ∧
  (∀ ds c, DepthOk c (h.eDecls ds c)) ∧
  (∀ n c r c', h.eExpr (.ident n) c = some (r, c') → c' = c)

theorem step_eExpr_ok (ext : Ext) (p : Evaluators)
    (hBinary : ∀ l op r c, DepthOk c (p.eBinary l op r c))
    (hIf : ∀ cond cons els c, DepthOk c (p.eIf cond cons els c))
    (hCall : ∀ fn args c, DepthOk c (p.eCall fn args c))
    (hExpr : ∀ e c, DepthOk c (p.eExpr e c))
    (hItems : ∀ es c, DepthOk c (p.eItems es c)) :
    ∀ e c, DepthOk c ((step ext p).eExpr e c) := by
  intro e c
  cases e with
  | lit l => exact depthOk_pure
  | binary l op r => exact depthOk_bind (hBinary l op r c) (fun v c₁ => depthOk_pure)
  | ifExpr cond cons els => exact hIf cond cons els c
  | lambda ps body => exact depthOk_pure
  | call fn args => exact hCall fn args c
  | ident n =>
      show DepthOk c (match c.search_in_stack n with
        | some v => pureE (EvalControl.value v) c
        | none => errE ("Variable " ++ n ++ " not defined") c)
      cases c.search_in_stack n with
      | some v => exact depthOk_pure
      | none => exact depthOk_errE
  | nested parent name =>
      refine depthOk_bind (hExpr parent c) ?_
      intro ctrl c₁
      show DepthOk c₁ (match ctrl.to_value.get_attr name with
        | Except.ok v => pureE (EvalControl.value v) c₁
        | Except.error m => errE m c₁)
      cases ctrl.to_value.get_attr name with
      | ok v => exact depthOk_pure
      | error m => exact depthOk_errE
  | arrayExpr items =>
      exact depthOk_bind (hItems items c) (fun vs c₁ => depthOk_pure)

theorem step_eStmt_ok (ext : Ext) (p : Evaluators)
    (hExpr : ∀ e c, DepthOk c (p.eExpr e c))
    (hDecls : ∀ ds c, DepthOk c (p.eDecls ds c)) :
    ∀ s c, DepthOk c ((step ext p).eStmt s c) := by
  intro s c
  cases s with
  | exprStmt e => exact hExpr e c
  | varDecl ds => exact depthOk_bind (hDecls ds c) (fun _ c₁ => depthOk_pure)
  | assign lhs rhs =>
      refine depthOk_bind (hExpr rhs c) ?_
      intro ctrl c₁
      show DepthOk c₁ (match c₁.assign lhs ctrl.to_value with
        | none => errE "Assigning to undefined variable" c₁
        | some c₂ => pureE (EvalControl.value ctrl.to_value) c₂)
      cases ha : c₁.assign lhs ctrl.to_value with
      | none => exact depthOk_errE
      | some c₂ => exact depthOk_ok (ctx_assign_length ha)
  | ret oe =>
      cases oe with
      | some e => exact depthOk_bind (hExpr e c) (fun ctrl c₁ => depthOk_pure)
      | none => exact depthOk_pure

theorem step_eStmts_ok (ext : Ext) (p : Evaluators)
    (hStmt : ∀ s c, DepthOk c (p.eStmt s c))
    (hStmts : ∀ ss c, DepthOk c (p.eStmts ss c)) :
    ∀ ss c, DepthOk c ((step ext p).eStmts ss c) := by
  intro ss c
  cases ss with
  | nil => exact depthOk_pure
  | cons s rest =>
      refine depthOk_bind (hStmt s c) ?_
      intro ctrl c₁
      cases ctrl with
      | value v => exact hStmts rest c₁
      | ret v => exact depthOk_pure

theorem step_eBlock_leak (ext : Ext) (p : Evaluators)
    (hStmts : ∀ ss c, DepthOk c (p.eStmts ss c)) :
    ∀ ss bs c, DepthLeak c ((step ext p).eBlock ss bs c) := by
  intro ss bs c
  show DepthLeak c
    (match p.eStmts ss (seedScope bs c.init_scope) with
     | none => none
     | some (Except.error m, c₃) => some (Except.error m, c₃)
     | some (Except.ok (EvalControl.ret v), c₃) => pureE (EvalControl.ret v) c₃.destroy_scope
     | some (Except.ok (EvalControl.value _), c₃) =>
         pureE (EvalControl.value Value.undefined) c₃.destroy_scope)
  generalize hg : seedScope bs c.init_scope = c₂
  have hlen : c₂.call_stack.length = c.call_stack.length + 1 := by
    rw [← hg, seedScope_length, init_scope_length]
  have hs := hStmts ss c₂
  cases hr : p.eStmts ss c₂ with
  | none => trivial
  | some rc =>
      obtain ⟨res, c₃⟩ := rc
      rw [hr] at hs
      cases res with
      | error m =>
          have : c₂.call_stack.length ≤ c₃.call_stack.length := hs
          show c.call_stack.length + 1 ≤ c₃.call_stack.length
          omega
      | ok ctrl =>
          have h3 : c₃.call_stack.length = c₂.call_stack.length := hs
          cases ctrl with
          | ret v =>
              show (c₃.destroy_scope).call_stack.length = c.call_stack.length
              rw [destroy_scope_length, h3, hlen]
              omega
          | value v =>
              show (c₃.destroy_scope).call_stack.length = c.call_stack.length
              rw [destroy_scope_length, h3, hlen]
              omega

theorem step_eBinary_ok (ext : Ext) (p : Evaluators)
    (hExpr : ∀ e c, DepthOk c (p.eExpr e c)) :
    ∀ l op r c, DepthOk c ((step ext p).eBinary l op r c) := by
  intro l op r c
  refine depthOk_bind (hExpr l c) ?_
  intro cl c₁
  refine depthOk_bind (hExpr r c₁) ?_
  intro cr c₂
  show DepthOk c₂ (match applyBinop op cl.to_value cr.to_value with
    | Except.ok v => pureE v c₂
    | Except.error m => errE m c₂)
  cases applyBinop op cl.to_value cr.to_value with
  | ok v => exact depthOk_pure
  | error m => exact depthOk_errE

theorem step_eIf_ok (ext : Ext) (p : Evaluators)
    (hExpr : ∀ e c, DepthOk c (p.eExpr e c))
    (hBlock : ∀ ss bs c, DepthLeak c (p.eBlock ss bs c))
    (hIf : ∀ cond cons els c, DepthOk c (p.eIf cond cons els c)) :
    ∀ cond cons els c, DepthOk c ((step ext p).eIf cond cons els c) := by
  intro cond cons els c
  refine depthOk_bind (hExpr cond c) ?_
  intro ctrl c₁
  show DepthOk c₁ (match ctrl.to_value with
    | Value.samNumber (Number.samInt i) =>
        if i ≠ 0 then p.eBlock cons none c₁
        else
          match els with
          | some (ElseArm.block b) => p.eBlock b none c₁
          | some (ElseArm.elif cond2 cons2 els2) => p.eIf cond2 cons2 els2 c₁
          | none => pureE (EvalControl.value Value.undefined) c₁
    | _ => errE "Condition must be integer" c₁)
  match ctrl.to_value with
  | .samNumber (.samInt i) =>
      show DepthOk c₁ (if i ≠ 0 then p.eBlock cons none c₁
        else
          match els with
          | some (ElseArm.block b) => p.eBlock b none c₁
          | some (ElseArm.elif cond2 cons2 els2) => p.eIf cond2 cons2 els2 c₁
          | none => pureE (EvalControl.value Value.undefined) c₁)
      by_cases hi : i ≠ 0
      · rw [if_pos hi]
        exact (hBlock cons none c₁).toDepthOk
      · rw [if_neg hi]
        match els with
        | some (.block b) => exact (hBlock b none c₁).toDepthOk
        | some (.elif cond2 cons2 els2) => exact hIf cond2 cons2 els2 c₁
        | none => exact depthOk_pure
  | .samNumber (.samFloat q) => exact depthOk_errE
  | .samString s => exact depthOk_errE
  | .samFunction f => exact depthOk_errE
  | .samForeignFunction ff => exact depthOk_errE
  | .samArray a => exact depthOk_errE
  | .samObject o => exact depthOk_errE
  | .undefined => exact depthOk_errE

/-- The shell/FFI fallback never touches the context: it diverges, fails at
the passed context, or succeeds at the passed context, and success requires
a bare-identifier function position. -/
theorem callFallback_cases (ext : Ext) (vs : List Value) (fn : Expr) (c₂ : Ctx) :
    callFallback ext vs fn c₂ = none ∨
    (∃ m, callFallback ext vs fn c₂ = some (.error m, c₂)) ∨
    (∃ v, callFallback ext vs fn c₂ = some (.ok (.value v), c₂) ∧ ∃ name, fn = .ident name) := by
  unfold callFallback
  split
  · split
    · split
      · exact Or.inl rfl
      · rename_i v heq2
        exact Or.inr (Or.inr ⟨v, rfl, _, rfl⟩)
      · rename_i m heq2
        exact Or.inr (Or.inl ⟨m, rfl⟩)
    · split
      · rename_i v heq2
        exact Or.inr (Or.inr ⟨v, rfl, _, rfl⟩)
      · rename_i m heq2
        exact Or.inr (Or.inl ⟨m, rfl⟩)
  · exact Or.inr (Or.inl ⟨_, rfl⟩)

theorem step_eCall_ok (ext : Ext) (p : Evaluators)
    (hArgs : ∀ es c, DepthOk c (p.eArgs es c))
    (hExpr : ∀ e c, DepthOk c (p.eExpr e c))
    (hBlock : ∀ ss bs c, DepthLeak c (p.eBlock ss bs c))
    (hId : ∀ n c r c', p.eExpr (.ident n) c = some (r, c') → c' = c) :
    ∀ fn args c, DepthOk c ((step ext p).eCall fn args c) := by
  intro fn args c
  refine depthOk_bind (hArgs args c) ?_
  intro vs c₁
  show DepthOk c₁ (match p.eExpr fn c₁ with
    | none => none
    | some (Except.ok (EvalControl.value (Value.samFunction f)), c₂) =>
        if vs.length ≠ f.params.length then errE "Argument count mismatch" c₂
        else
          match c₂.tree f.body with
          | none => errE "Function body not found" c₂
          | some body => p.eBlock body (some (f.params.zip vs)) c₂
    | some (_, c₂) => callFallback ext vs fn c₂)
  have he := hExpr fn c₁
  cases hr : p.eExpr fn c₁ with
  | none => trivial
  | some rc =>
      obtain ⟨res, c₂⟩ := rc
      rw [hr] at he
      have hfall : ∀ r2, (res, c₂) = r2 →
          c₁.call_stack.length ≤ c₂.call_stack.length →
          DepthOk c₁ (callFallback ext vs fn c₂) := by
        intro r2 _ hle
        rcases callFallback_cases ext vs fn c₂ with hcf | ⟨m, hcf⟩ | ⟨v, hcf, name, hfn⟩
        · rw [hcf]; trivial
        · rw [hcf]; exact depthOk_err hle
        · rw [hcf]
          refine depthOk_ok ?_
          subst hfn
          rw [hId name c₁ res c₂ hr]
      cases res with
      | error m =>
          exact hfall _ rfl he
      | ok ctrl =>
          have h2 : c₂.call_stack.length = c₁.call_stack.length := he
          cases ctrl with
          | ret v => exact hfall _ rfl (le_of_eq h2.symm)
          | value v =>
              cases v with
              | samFunction f =>
                  show DepthOk c₁ (if vs.length ≠ f.params.length
                    then errE "Argument count mismatch" c₂
                    else
                      match c₂.tree f.body with
                      | none => errE "Function body not found" c₂
                      | some body => p.eBlock body (some (f.params.zip vs)) c₂)
                  by_cases hl : vs.length ≠ f.params.length
                  · rw [if_pos hl]
                    exact depthOk_err (le_of_eq h2.symm)
                  · rw [if_neg hl]
                    cases c₂.tree f.body with
                    | none => exact depthOk_err (le_of_eq h2.symm)
                    | some body =>
                        exact depthOk_congr h2
                          (hBlock body (some (f.params.zip vs)) c₂).toDepthOk
              | samNumber n => exact hfall _ rfl (le_of_eq h2.symm)
              | samString s => exact hfall _ rfl (le_of_eq h2.symm)
              | samForeignFunction ff => exact hfall _ rfl (le_of_eq h2.symm)
              | samArray a => exact hfall _ rfl (le_of_eq h2.symm)
              | samObject o => exact hfall _ rfl (le_of_eq h2.symm)
              | undefined => exact hfall _ rfl (le_of_eq h2.symm)

theorem step_eArgs_ok (ext : Ext) (p : Evaluators)
    (hExpr : ∀ e c, DepthOk c (p.eExpr e c))
    (hArgs : ∀ es c, DepthOk c (p.eArgs es c)) :
    ∀ es c, DepthOk c ((step ext p).eArgs es c) := by
  intro es c
  cases es with
  | nil => exact depthOk_pure
  | cons e rest =>
      refine depthOk_bind (hExpr e c) ?_
      intro ctrl c₁
      cases ctrl with
      | value v => exact depthOk_bind (hArgs rest c₁) (fun vs c₂ => depthOk_pure)
      | ret v => exact depthOk_errE

theorem step_eItems_ok (ext : Ext) (p : Evaluators)
    (hExpr : ∀ e c, DepthOk c (p.eExpr e c))
    (hItems : ∀ es c, DepthOk c (p.eItems es c)) :
    ∀ es c, DepthOk c ((step ext p).eItems es c) := by
  intro es c
  cases es with
  | nil => exact depthOk_pure
  | cons e rest =>
      refine depthOk_bind (hExpr e c) ?_
      intro ctrl c₁
      cases ctrl with
      | value v => exact depthOk_bind (hItems rest c₁) (fun vs c₂ => depthOk_pure)
      | ret v => exact depthOk_errE

theorem step_eDecl_ok (ext : Ext) (p : Evaluators)
    (hExpr : ∀ e c, DepthOk c (p.eExpr e c)) :
    ∀ d c, DepthOk c ((step ext p).eDecl d c) := by
  intro d c
  cases d with
  | mk name oe =>
      cases oe with
      | none => exact depthOk_ok (orInsertCurrent_length c name .undefined)
      | some e =>
          refine depthOk_bind (hExpr e c) ?_
          intro ctrl c₁
          refine depthOk_ok ?_
          rw [insertCurrent_length, orInsertCurrent_length]

theorem step_eDecls_ok (ext : Ext) (p : Evaluators)
    (hDecl : ∀ d c, DepthOk c (p.eDecl d c))
    (hDecls : ∀ ds c, DepthOk c (p.eDecls ds c)) :
    ∀ ds c, DepthOk c ((step ext p).eDecls ds c) := by
  intro ds c
  cases ds with
  | nil => exact depthOk_pure
  | cons d rest => exact depthOk_bind (hDecl d c) (fun _ c₁ => hDecls rest c₁)

theorem step_ident_pure (ext : Ext) (p : Evaluators) :
    ∀ n c r c', (step ext p).eExpr (.ident n) c = some (r, c') → c' = c := by
  intro n c r c' h
  have h' : (match c.search_in_stack n with
      | some v => pureE (EvalControl.value v) c
      | none => errE ("Variable " ++ n ++ " not defined") c)
      = (some (r, c') : EvalRes EvalControl) := h
  split at h'
  · simp only [pureE] at h'
    exact (congrArg Prod.snd (Option.some.inj h')).symm
  · simp only [errE] at h'
    exact (congrArg Prod.snd (Option.some.inj h')).symm

/-- Every evaluator family obtained by fuel iteration satisfies the depth
invariant. -/
theorem good_evals (ext : Ext) : ∀ fuel, GoodE (evals ext fuel) := by
  intro fuel
  induction fuel with
  | zero =>
      refine ⟨?_, ?_, ?_, ?_, ?_, ?_, ?_, ?_, ?_, ?_, ?_, ?_⟩ <;>
        first
          | (intro _ _; trivial)
          | (intro _ _ _; trivial)
          | (intro _ _ _ _; trivial)
          | (intro _ _ _ _ h; exact absurd h (by simp [evals]))
  | succ f ih =>
      obtain ⟨hE, hS, hSS, hB, hBin, hIf, hC, hA, hI, hD, hDS, hId⟩ := ih
      exact ⟨step_eExpr_ok ext _ hBin hIf hC hE hI,
             step_eStmt_ok ext _ hE hDS,
             step_eStmts_ok ext _ hS hSS,
             step_eBlock_leak ext _ hSS,
             step_eBinary_ok ext _ hE,
             step_eIf_ok ext _ hE hB hIf,
             step_eCall_ok ext _ hA hE hB hId,
             step_eArgs_ok ext _ hE hA,
             step_eItems_ok ext _ hE hI,
             step_eDecl_ok ext _ hE,
             step_eDecls_ok ext _ hD hDS,
             step_ident_pure ext _⟩

/- ===================== Concrete witness material ===================== -/

/-- An oracle environment for concrete evaluations: no process can be
spawned, no file read, nothing parses as JSON. -/
def extW : Ext :=
  { runProcess := fun _ _ => .error "no process"
    readFile := fun _ => none
    parseJson := fun _ => none }

/-- An empty retained tree (no function bodies). -/
def treeW : Nat → Option (List Stmt) :=
  fun _ => none

/- ===================== C1: block frame discipline ===================== -/

/-- C1 (amended): every statement-block evaluation (with or without
pre-seeded call-argument bindings) pushes exactly one frame on entry and
pops it on the fall-through and early-Return exits, so the scope-stack
depth after the block equals the depth before it on both success outcomes;
but on error propagation the frame is not popped, and the stack is then
strictly deeper than before the block. -/
theorem statement_block_depth :
    (∀ ext fuel ss bs c r c',
        evaluate_statement_block ext fuel ss bs c = some (Except.ok r, c') →
        c'.call_stack.length = c.call_stack.length) ∧
    (∀ ext fuel ss bs c m c',
        evaluate_statement_block ext fuel ss bs c = some (Except.error m, c') →
        c.call_stack.length + 1 ≤ c'.call_stack.length) := by
  constructor
  · intro ext fuel ss bs c r c' h
    have hb := (good_evals ext fuel).2.2.2.1 ss bs c
    have h' : (evals ext fuel).eBlock ss bs c = some (Except.ok r, c') := h
    rw [h'] at hb
    exact hb
  · intro ext fuel ss bs c m c' h
    have hb := (good_evals ext fuel).2.2.2.1 ss bs c
    have h' : (evals ext fuel).eBlock ss bs c = some (Except.error m, c') := h
    rw [h'] at hb
    exact hb

/-- Witness for the C1 theorem at concrete inputs: the empty block
preserves depth 1, and the block `nope;` errors at depth 2. -/
theorem statement_block_depth_witness :
    (Ctx.mk [[]] treeW).call_stack.length = (Ctx.new treeW).call_stack.length ∧
    (Ctx.new treeW).call_stack.length + 1 ≤ (Ctx.mk [[], []] treeW).call_stack.length :=
  ⟨statement_block_depth.1 extW 10 [] none (Ctx.new treeW)
      (EvalControl.value Value.undefined) (Ctx.mk [[]] treeW) rfl,
   statement_block_depth.2 extW 10 [Stmt.exprStmt (Expr.ident "nope")] none (Ctx.new treeW)
      "Variable nope not defined" (Ctx.mk [[], []] treeW) rfl⟩

/-- C1 counterexample to the claim as stated: evaluating the block whose
only statement mentions the unbound identifier `nope` propagates an error
without popping the pushed frame - the stack has depth 1 before the block
and depth 2 after the error exit, so the depth is not restored on the error
path. -/
theorem statement_block_error_leak_cex :
    evaluate_statement_block extW 10 [Stmt.exprStmt (Expr.ident "nope")] none (Ctx.new treeW)
      = some (Except.error "Variable nope not defined", Ctx.mk [[], []] treeW) ∧
    (Ctx.new treeW).call_stack.length = 1 ∧
    (Ctx.mk [[], []] treeW).call_stack.length = 2 :=
  ⟨rfl, rfl, rfl⟩

/- ===================== C2: return outside function ===================== -/

/-- C2 (amended): a Return signal from a top-level statement other than the
first child makes whole-program evaluation fail with "Return outside
function"; but the first top-level child's control signal is discarded, so a
Return there is silently ignored and evaluation continues with the rest. -/
theorem toplevel_return_check :
    (∀ ext fuel tree s rest v c₁,
        evaluate_statement ext fuel s (Ctx.new tree) = some (Except.ok (EvalControl.ret v), c₁) →
        evaluate ext (fuel + 1) tree (TopItem.stmt s :: rest) = evalRest ext fuel rest c₁) ∧
    (∀ ext fuel s rest c v c₁,
        evaluate_statement ext fuel s c = some (Except.ok (EvalControl.ret v), c₁) →
        evalRest ext (fuel + 1) (TopItem.stmt s :: rest) c
          = some (Except.error "Return outside function")) := by
  constructor
  · intro ext fuel tree s rest v c₁ h
    have h' : (evals ext fuel).eStmt s (Ctx.new tree)
        = some (Except.ok (EvalControl.ret v), c₁) := h
    show (match (evals ext fuel).eStmt s (Ctx.new tree) with
      | none => none
      | some (Except.error m, _) => some (Except.error m)
      | some (Except.ok _, c₁) => evalRest ext fuel rest c₁) = evalRest ext fuel rest c₁
    rw [h']
  · intro ext fuel s rest c v c₁ h
    have h' : (evals ext fuel).eStmt s c = some (Except.ok (EvalControl.ret v), c₁) := h
    show (match (evals ext fuel).eStmt s c with
      | none => none
      | some (Except.error m, _) => some (Except.error m)
      | some (Except.ok (EvalControl.value _), c₁) => evalRest ext fuel rest c₁
      | some (Except.ok (EvalControl.ret _), _) =>
          some (Except.error "Return outside function"))
      = some (Except.error "Return outside function")
    rw [h']

/-- Witness for the C2 theorem: the bare statement `return;` as first child
falls through to the loop over the rest, and the same statement in non-first
position produces the "Return outside function" error. -/
theorem toplevel_return_check_witness :
    evaluate extW 10 treeW [TopItem.stmt (Stmt.ret none)] = evalRest extW 9 [] (Ctx.new treeW) ∧
    evalRest extW 10 [TopItem.stmt (Stmt.ret none)] (Ctx.new treeW)
      = some (Except.error "Return outside function") :=
  ⟨toplevel_return_check.1 extW 9 treeW (Stmt.ret none) [] Value.undefined (Ctx.new treeW) rfl,
   toplevel_return_check.2 extW 9 (Stmt.ret none) [] (Ctx.new treeW) Value.undefined
      (Ctx.new treeW) rfl⟩

/-- C2 counterexample to the claim as stated: for the program whose single
(and hence first) top-level statement is `return;`, evaluation succeeds and
hands back a final Scope Stack instead of failing with "return outside
function" - the first child's Return signal is discarded. -/
theorem first_toplevel_return_ignored_cex :
    evaluate extW 10 treeW [TopItem.stmt (Stmt.ret none)] = some (Except.ok (Ctx.new treeW)) :=
  rfl

/- ===================== C3: interface registration frame ===================== -/

/-- Oracles under which the manifest "m.json" parses to the JSON object
mapping "bar" to the command string "echo 42". -/
def extC3 : Ext :=
  { runProcess := fun _ _ => .error "no process"
    readFile := fun p => if p = "m.json" then some "manifest" else none
    parseJson := fun s =>
      if s = "manifest" then some (Json.obj (JObj.cons "bar" (Json.str "echo 42") JObj.nil))
      else none }

/-- C3 (amended): a successful register_ffi(path, name, ctx) call installs
the ForeignFunction binding into the current (topmost) frame of the supplied
Scope Stack - the frame reached through current_scope() - not into the
global frame; at call depth 1 (the only depth at which the evaluator invokes
it, since an `interfaces` block is processed before any frame beyond the
global one exists) the two coincide. -/
theorem register_ffi_installs_in_current_frame :
    ∀ ext path name c c',
      FFI.register_ffi ext path name c = Except.ok c' →
      ∃ cmd,
        ((ext.readFile path).bind ext.parseJson).bind
            (fun j => (j.get name).bind Json.as_str) = some cmd ∧
        c' = c.insertCurrent name (Value.samForeignFunction ⟨cmd⟩) := by
  intro ext path name c c' h
  unfold FFI.register_ffi at h
  split at h
  · cases h
  · rename_i contents hrf
    split at h
    · cases h
    · rename_i json hpj
      split at h
      · cases h
      · rename_i cmd hget
        cases h
        exact ⟨cmd, by simp [hrf, hpj, hget], rfl⟩

/-- Witness for the C3 theorem: registering "bar" from "m.json" on a
two-frame stack yields the insertCurrent update with command "echo 42". -/
theorem register_ffi_installs_in_current_frame_witness :
    ∃ cmd,
      ((extC3.readFile "m.json").bind extC3.parseJson).bind
          (fun j => (j.get "bar").bind Json.as_str) = some cmd ∧
      Ctx.mk [[], [("bar", Value.samForeignFunction ⟨"echo 42"⟩)]] treeW
        = (Ctx.mk [[], []] treeW).insertCurrent "bar" (Value.samForeignFunction ⟨cmd⟩) :=
  register_ffi_installs_in_current_frame extC3 "m.json" "bar" (Ctx.mk [[], []] treeW)
    (Ctx.mk [[], [("bar", Value.samForeignFunction ⟨"echo 42"⟩)]] treeW) rfl

/-- C3 counterexample to the claim as stated: registering "bar" while two
frames are on the stack puts the ForeignFunction into the topmost frame
(frame 1), and frame 0 - the global frame - does not receive the binding. -/
theorem register_ffi_not_global_cex :
    FFI.register_ffi extC3 "m.json" "bar" (Ctx.mk [[], []] treeW)
      = Except.ok (Ctx.mk [[], [("bar", Value.samForeignFunction ⟨"echo 42"⟩)]] treeW) ∧
    (Ctx.mk [[], [("bar", Value.samForeignFunction ⟨"echo 42"⟩)]] treeW).globalGet "bar" = none ∧
    (Ctx.mk [[], [("bar", Value.samForeignFunction ⟨"echo 42"⟩)]] treeW).currentGet "bar"
      = some (Value.samForeignFunction ⟨"echo 42"⟩) :=
  ⟨rfl, rfl, rfl⟩

/- ===================== C4: addition on Values ===================== -/

/-- C4: the binary + on Values: Int+Int stays Int with integer addition;
any Float operand promotes both Numbers to Float and adds the promoted
values; String+String concatenates; every other pairing of operand kinds
yields Undefined without raising an error. -/
theorem value_add_characterization :
    (∀ i j : Int, Value.add (.samNumber (.samInt i)) (.samNumber (.samInt j))
        = .samNumber (.samInt (i + j))) ∧
    (∀ a b : Number, ((∃ q, a = .samFloat q) ∨ (∃ q, b = .samFloat q)) →
        Value.add (.samNumber a) (.samNumber b)
          = .samNumber (.samFloat (a.as_f64 + b.as_f64))) ∧
    (∀ s t : String, Value.add (.samString s) (.samString t) = .samString (s ++ t)) ∧
    (∀ a b : Value, (∀ x y : Number, ¬(a = .samNumber x ∧ b = .samNumber y)) →
        (∀ s t : String, ¬(a = .samString s ∧ b = .samString t)) →
        Value.add a b = .undefined) := by
  refine ⟨fun i j => rfl, ?_, fun s t => rfl, ?_⟩
  · intro a b hf
    cases a with
    | samInt i =>
        cases b with
        | samInt j =>
            rcases hf with ⟨q, hq⟩ | ⟨q, hq⟩ <;> cases hq
        | samFloat q => rfl
    | samFloat q => cases b <;> rfl
  · intro a b hnum hstr
    cases a <;> cases b <;> first
      | rfl
      | (exact absurd ⟨rfl, rfl⟩ (hnum _ _))
      | (exact absurd ⟨rfl, rfl⟩ (hstr _ _))

/-- Witness for the C4 theorem at concrete operands: 1+2, 1+2.5 (promoted),
string concatenation, and a Number+Undefined mismatch. -/
theorem value_add_characterization_witness :
    Value.add (.samNumber (.samInt 1)) (.samNumber (.samInt 2))
      = .samNumber (.samInt 3) ∧
    Value.add (.samNumber (.samInt 1)) (.samNumber (.samFloat (5/2)))
      = .samNumber (.samFloat ((Number.samInt 1).as_f64 + (Number.samFloat (5/2)).as_f64)) ∧
    Value.add (.samString "hello") (.samString " world") = .samString "hello world" ∧
    Value.add (.samNumber (.samInt 1)) Value.undefined = .undefined :=
  ⟨value_add_characterization.1 1 2,
   value_add_characterization.2.1 (.samInt 1) (.samFloat (5/2)) (Or.inr ⟨5/2, rfl⟩),
   value_add_characterization.2.2.1 "hello" " world",
   value_add_characterization.2.2.2 (.samNumber (.samInt 1)) Value.undefined
     (fun x y h => by cases h.2) (fun s t h => by cases h.1)⟩

/- ===================== C5: comparisons on incomparable operands ===================== -/

/-- C5 (amended): evaluating a binary comparison whose two operand Values
are not ordered (partial_cmp yields no ordering, i.e. the operands are not
both Numbers) does not fail: Rust derives the comparison operators from
partial_cmp, all four of which answer false on None, so the expression
evaluates successfully to Int 0. -/
theorem comparison_incomparable_yields_false :
    ∀ ext fuel l r c op cl c₁ cr c₂,
      evaluate_expression ext fuel l c = some (Except.ok cl, c₁) →
      evaluate_expression ext fuel r c₁ = some (Except.ok cr, c₂) →
      Value.pcmp cl.to_value cr.to_value = none →
      (op = "<" ∨ op = ">" ∨ op = "<=" ∨ op = ">=") →
      evaluate_binary_expression ext (fuel + 1) l op r c
        = some (Except.ok (Value.samNumber (Number.samInt 0)), c₂) := by
  intro ext fuel l r c op cl c₁ cr c₂ hl hr hcmp hop
  have hl' : (evals ext fuel).eExpr l c = some (Except.ok cl, c₁) := hl
  have hr' : (evals ext fuel).eExpr r c₁ = some (Except.ok cr, c₂) := hr
  show bindE ((evals ext fuel).eExpr l c) (fun cl c₁ =>
      bindE ((evals ext fuel).eExpr r c₁) (fun cr c₂ =>
        match applyBinop op cl.to_value cr.to_value with
        | Except.ok v => pureE v c₂
        | Except.error m => errE m c₂))
    = some (Except.ok (Value.samNumber (Number.samInt 0)), c₂)
  rw [hl']
  show bindE ((evals ext fuel).eExpr r c₁) (fun cr c₂ =>
      match applyBinop op cl.to_value cr.to_value with
      | Except.ok v => pureE v c₂
      | Except.error m => errE m c₂)
    = some (Except.ok (Value.samNumber (Number.samInt 0)), c₂)
  rw [hr']
  show (match applyBinop op cl.to_value cr.to_value with
      | Except.ok v => pureE v c₂
      | Except.error m => errE m c₂)
    = some (Except.ok (Value.samNumber (Number.samInt 0)), c₂)
  rcases hop with rfl | rfl | rfl | rfl
  · simp [applyBinop, Value.ltb, hcmp, Value.ofBool, pureE]
  · simp [applyBinop, Value.gtb, hcmp, Value.ofBool, pureE]
  · simp [applyBinop, Value.leb, hcmp, Value.ofBool, pureE]
  · simp [applyBinop, Value.geb, hcmp, Value.ofBool, pureE]

/-- Witness for the C5 theorem: with u bound to Undefined, the expression
u < 1 evaluates to Int 0 rather than failing. -/
theorem comparison_incomparable_yields_false_witness :
    evaluate_binary_expression extW 10 (Expr.ident "u") "<"
        (Expr.lit (Lit.num (Number.samInt 1)))
        (Ctx.mk [[("u", Value.undefined)]] treeW)
      = some (Except.ok (Value.samNumber (Number.samInt 0)),
          Ctx.mk [[("u", Value.undefined)]] treeW) :=
  comparison_incomparable_yields_false extW 9 (Expr.ident "u")
    (Expr.lit (Lit.num (Number.samInt 1))) (Ctx.mk [[("u", Value.undefined)]] treeW) "<"
    (EvalControl.value Value.undefined) (Ctx.mk [[("u", Value.undefined)]] treeW)
    (EvalControl.value (Value.samNumber (Number.samInt 1)))
    (Ctx.mk [[("u", Value.undefined)]] treeW)
    rfl rfl rfl (Or.inl rfl)

/-- C5 counterexample to the claim as stated: the comparison u < 1 with u
bound to Undefined (operands not both Numbers, so no ordering exists)
evaluates successfully to Int 0 instead of failing with a
type-contract-violation error. -/
theorem comparison_incomparable_no_error_cex :
    evaluate_binary_expression extW 10 (Expr.ident "u") "<"
        (Expr.lit (Lit.num (Number.samInt 1)))
        (Ctx.mk [[("u", Value.undefined)]] treeW)
      = some (Except.ok (Value.samNumber (Number.samInt 0)),
          Ctx.mk [[("u", Value.undefined)]] treeW) ∧
    Value.pcmp Value.undefined (Value.samNumber (Number.samInt 1)) = none :=
  ⟨rfl, rfl⟩

/- ===================== C6: JSON-to-Value conversion ===================== -/

mutual

/-- The conversion the specification describes, written from its words
(section 4.3): null to Undefined, boolean to Int 0/1, string to String,
number to Int when integral else Float, object to Object recursively, and
array to Array recursively, elementwise.  To be compared against the
source's FFI.json_to_value. -/
def jsonToValueSpec : Json → Value
| .null => .undefined
| .bool b => .samNumber (.samInt (if b then 1 else 0))
| .str s => .samString s
| .num (.int i) => .samNumber (.samInt i)
| .num (.float q) => .samNumber (.samFloat q)
| .arr a => .samArray (jarrToValueSpec a)
| .obj o => .samObject (jobjToValueSpec o)

/-- Elementwise conversion of a JSON array per the spec. -/
def jarrToValueSpec : JArr → List Value
| .nil => []
| .cons h t => jsonToValueSpec h :: jarrToValueSpec t

/-- Memberwise conversion of a JSON object per the spec. -/
def jobjToValueSpec : JObj → List (String × Value)
| .nil => []
| .cons k v t => (k, jsonToValueSpec v) :: jobjToValueSpec t

end

mutual

/-- True when no JSON array occurs anywhere in the value. -/
def Json.arrayFree : Json → Bool
| .arr _ => false
| .obj o => JObj.arrayFree o
| _ => true

/-- Array-freeness of every member of a JSON object. -/
def JObj.arrayFree : JObj → Bool
| .nil => true
| .cons _ v t => Json.arrayFree v && JObj.arrayFree t

end

mutual

theorem json_to_value_arrayFree_aux :
    ∀ j : Json, j.arrayFree = true →
      FFI.json_to_value j = some (.ok (jsonToValueSpec j))
  | .null, _ => rfl
  | .bool b, _ => rfl
  | .str s, _ => rfl
  | .num (.int i), _ => rfl
  | .num (.float q), _ => rfl
  | .arr a, h => by cases h
  | .obj o, h => by
      have ho : JObj.arrayFree o = true := h
      have hh := jobj_to_value_arrayFree_aux o ho
      show (match FFI.jobj_to_value o with
        | none => none
        | some (Except.error m) => some (Except.error m)
        | some (Except.ok fields) => some (Except.ok (Value.samObject fields)))
        = some (Except.ok (jsonToValueSpec (Json.obj o)))
      rw [hh]
      rfl

theorem jobj_to_value_arrayFree_aux :
    ∀ o : JObj, o.arrayFree = true →
      FFI.jobj_to_value o = some (.ok (jobjToValueSpec o))
  | .nil, _ => rfl
  | .cons k v t, h => by
      have h' : (Json.arrayFree v && JObj.arrayFree t) = true := h
      simp only [Bool.and_eq_true] at h'
      have h1 := json_to_value_arrayFree_aux v h'.1
      have h2 := jobj_to_value_arrayFree_aux t h'.2
      show (match FFI.json_to_value v with
        | none => none
        | some (Except.error m) => some (Except.error m)
        | some (Except.ok w) =>
            match FFI.jobj_to_value t with
            | none => none
            | some (Except.error m) => some (Except.error m)
            | some (Except.ok rest) => some (Except.ok ((k, w) :: rest)))
        = some (Except.ok (jobjToValueSpec (JObj.cons k v t)))
      rw [h1, h2]
      rfl

end

/-- C6 (amended): on every array-free JSON value the conversion agrees with
the spec's recursive mapping (null to Undefined, boolean to Int 0/1, string
to String, number to Int when integral else Float, object to Object with
members converted recursively); it is not total, though: any array input
hits the todo panic. -/
theorem json_to_value_arrayFree :
    ∀ j : Json, j.arrayFree = true →
      FFI.json_to_value j = some (.ok (jsonToValueSpec j)) := by
  intro j h
  exact json_to_value_arrayFree_aux j h

/-- Witness for the C6 theorem: an object nesting every array-free JSON
shape converts to the corresponding Object value. -/
theorem json_to_value_arrayFree_witness :
    FFI.json_to_value
        (Json.obj (JObj.cons "a" Json.null
          (JObj.cons "b" (Json.bool true)
            (JObj.cons "c" (Json.str "s")
              (JObj.cons "d" (Json.num (JNum.int 3))
                (JObj.cons "e" (Json.num (JNum.float (5/2)))
                  (JObj.cons "f" (Json.obj JObj.nil) JObj.nil)))))))
      = some (.ok (jsonToValueSpec
          (Json.obj (JObj.cons "a" Json.null
            (JObj.cons "b" (Json.bool true)
              (JObj.cons "c" (Json.str "s")
                (JObj.cons "d" (Json.num (JNum.int 3))
                  (JObj.cons "e" (Json.num (JNum.float (5/2)))
                    (JObj.cons "f" (Json.obj JObj.nil) JObj.nil))))))))) :=
  json_to_value_arrayFree _ rfl

/-- C6 counterexample to the claim as stated: the conversion is not total -
an array input (even the empty array) reaches the todo panic and produces
no Value at all, instead of an Array with elements converted recursively. -/
theorem json_to_value_array_panics_cex :
    FFI.json_to_value (Json.arr JArr.nil) = none :=
  rfl

/- ===================== C7: the remainder operator ===================== -/

/-- The exact f64 rem_euclid value is non-negative whenever the divisor is
nonzero. -/
theorem remEuclid_nonneg (a b : Rat) (hb : b ≠ 0) : 0 ≤ remEuclid a b := by
  have hd : (0 : Rat) < |b| := abs_pos.mpr hb
  have h1 : remEuclid a b = |b| * Int.fract (a / |b|) := by
    unfold remEuclid Int.fract
    field_simp
  rw [h1]
  exact mul_nonneg hd.le (Int.fract_nonneg _)

/-- C7: the % operator on two Numbers wrapped as Values: Int % Int with a
nonzero divisor is the truncating (toward-zero) integer remainder; when at
least one operand is a Float and the divisor is numerically nonzero the
result is the Euclidean Float remainder, which is never negative; and a
numerically zero divisor (Int 0 or Float 0.0) gives Undefined in every
case. -/
theorem value_rem_characterization :
    (∀ i j : Int, j ≠ 0 →
        Value.rem (.samNumber (.samInt i)) (.samNumber (.samInt j))
          = .samNumber (.samInt (Int.tmod i j))) ∧
    (∀ a b : Number, ((∃ q, a = .samFloat q) ∨ (∃ q, b = .samFloat q)) →
        b.as_f64 ≠ 0 →
        Value.rem (.samNumber a) (.samNumber b)
            = .samNumber (.samFloat (remEuclid a.as_f64 b.as_f64)) ∧
          0 ≤ remEuclid a.as_f64 b.as_f64) ∧
    (∀ a : Number,
        Value.rem (.samNumber a) (.samNumber (.samInt 0)) = .undefined ∧
        Value.rem (.samNumber a) (.samNumber (.samFloat 0)) = .undefined) := by
  refine ⟨?_, ?_, ?_⟩
  · intro i j hj
    show (if j = 0 then Value.undefined
        else Value.samNumber ((Number.samInt i).rem (Number.samInt j)))
      = Value.samNumber (Number.samInt (Int.tmod i j))
    rw [if_neg hj]
    rfl
  · intro a b hf hb
    have hnn : 0 ≤ remEuclid a.as_f64 b.as_f64 := remEuclid_nonneg _ _ hb
    refine ⟨?_, hnn⟩
    cases b with
    | samInt j =>
        have hj : j ≠ 0 := by
          intro hj0
          apply hb
          rw [hj0]
          rfl
        cases a with
        | samInt i =>
            rcases hf with ⟨q, hq⟩ | ⟨q, hq⟩ <;> cases hq
        | samFloat q =>
            show (if j = 0 then Value.undefined
                else Value.samNumber ((Number.samFloat q).rem (Number.samInt j)))
              = Value.samNumber (.samFloat (remEuclid (Number.samFloat q).as_f64
                  (Number.samInt j).as_f64))
            rw [if_neg hj]
            rfl
    | samFloat f =>
        have hfz : f ≠ 0 := by
          intro hf0
          apply hb
          rw [hf0]
          rfl
        cases a with
        | samInt i =>
            show (if f = 0 then Value.undefined
                else Value.samNumber ((Number.samInt i).rem (Number.samFloat f)))
              = Value.samNumber (.samFloat (remEuclid (Number.samInt i).as_f64
                  (Number.samFloat f).as_f64))
            rw [if_neg hfz]
            rfl
        | samFloat q =>
            show (if f = 0 then Value.undefined
                else Value.samNumber ((Number.samFloat q).rem (Number.samFloat f)))
              = Value.samNumber (.samFloat (remEuclid (Number.samFloat q).as_f64
                  (Number.samFloat f).as_f64))
            rw [if_neg hfz]
            rfl
  · intro a
    constructor
    · show (if (0 : Int) = 0 then Value.undefined
          else Value.samNumber (a.rem (Number.samInt 0))) = Value.undefined
      rw [if_pos rfl]
    · show (if (0 : Rat) = 0 then Value.undefined
          else Value.samNumber (a.rem (Number.samFloat 0))) = Value.undefined
      rw [if_pos rfl]

/-- Witness for the C7 theorem: 7 % 4 is Int 3 (truncating), -7.5 % 2 is
the non-negative Float 0.5, and both zero divisors give Undefined. -/
theorem value_rem_characterization_witness :
    Value.rem (.samNumber (.samInt 7)) (.samNumber (.samInt 4))
      = .samNumber (.samInt (Int.tmod 7 4)) ∧
    (Value.rem (.samNumber (.samFloat (-15/2))) (.samNumber (.samInt 2))
        = .samNumber (.samFloat (remEuclid (Number.samFloat (-15/2)).as_f64
            (Number.samInt 2).as_f64)) ∧
      0 ≤ remEuclid (Number.samFloat (-15/2)).as_f64 (Number.samInt 2).as_f64) ∧
    (Value.rem (.samNumber (.samInt 5)) (.samNumber (.samInt 0)) = .undefined ∧
     Value.rem (.samNumber (.samInt 5)) (.samNumber (.samFloat 0)) = .undefined) :=
  ⟨value_rem_characterization.1 7 4 (by decide),
   value_rem_characterization.2.1 (.samFloat (-15/2)) (.samInt 2)
     (Or.inl ⟨-15/2, rfl⟩) (by norm_num [Number.as_f64]),
   value_rem_characterization.2.2 (.samInt 5)⟩

/- ===================== C8: variable declarations ===================== -/

theorem modifyLast_getLast? (f : Scope → Scope) :
    ∀ st : List Scope, (modifyLast f st).getLast? = st.getLast?.map f := by
  intro st
  induction st with
  | nil => rfl
  | cons s rest ih =>
      cases rest with
      | nil => rfl
      | cons a t =>
          have hshape : ∃ h tl, modifyLast f (a :: t) = h :: tl := by
            cases t with
            | nil => exact ⟨f a, [], rfl⟩
            | cons b t2 => exact ⟨a, modifyLast f (b :: t2), rfl⟩
          obtain ⟨hd, tl, heq⟩ := hshape
          have e1 : modifyLast f (s :: a :: t) = s :: modifyLast f (a :: t) := rfl
          rw [e1, heq, List.getLast?_cons_cons, ← heq, ih, List.getLast?_cons_cons]

theorem scope_get_insert_self (s : Scope) (k : String) (v : Value) :
    (s.insert k v).get k = some v := by
  induction s with
  | nil => simp [Scope.insert, Scope.get]
  | cons p t ih =>
      obtain ⟨k', v'⟩ := p
      by_cases hk : k' = k
      · subst hk
        simp [Scope.insert, Scope.get]
      · simp only [Scope.insert, if_neg hk]
        simp only [Scope.get, List.find?] at ih ⊢
        simp [hk, ih]

theorem getLast?_ne_none {st : List Scope} (h : st ≠ []) : ∃ s, st.getLast? = some s := by
  cases st with
  | nil => exact absurd rfl h
  | cons a t => exact ⟨(a :: t).getLast (by simp), List.getLast?_eq_getLast _ _⟩

theorem insertCurrent_currentGet (c : Ctx) (k : String) (v : Value)
    (h : c.call_stack ≠ []) : (c.insertCurrent k v).currentGet k = some v := by
  unfold Ctx.currentGet Ctx.insertCurrent
  simp only [modifyLast_getLast?]
  obtain ⟨s, hl⟩ := getLast?_ne_none h
  rw [hl]
  simp [scope_get_insert_self]

theorem orInsertCurrent_stack_ne_nil (c : Ctx) (k : String) (v : Value)
    (h : c.call_stack ≠ []) : (c.orInsertCurrent k v).call_stack ≠ [] := by
  intro hnil
  apply h
  have := orInsertCurrent_length c k v
  rw [hnil] at this
  exact List.length_eq_zero.mp this.symm

theorem orInsertCurrent_currentGet (c : Ctx) (k : String) (h : c.call_stack ≠ []) :
    (c.orInsertCurrent k Value.undefined).currentGet k
      = some ((c.currentGet k).getD Value.undefined) := by
  unfold Ctx.currentGet Ctx.orInsertCurrent
  simp only [modifyLast_getLast?]
  obtain ⟨s, hl⟩ := getLast?_ne_none h
  rw [hl]
  cases hs : s.get k with
  | some w => simp [hs]
  | none => simp [hs, scope_get_insert_self]

/-- C8 (amended): a variable_declaration statement always yields the plain
Undefined signal, never Return; a declarator with an initializer binds the
name in the current frame to the initializer's value, overwriting any
existing binding; a declarator without an initializer binds the name to
Undefined only when the name is not already bound in the current frame -
an existing binding is left untouched (entry().or_insert semantics), not
reset to Undefined. -/
theorem variable_declaration_semantics :
    (∀ ext fuel ds c r c',
        evaluate_statement ext fuel (Stmt.varDecl ds) c = some (Except.ok r, c') →
        r = EvalControl.value Value.undefined) ∧
    (∀ ext fuel n e c ctrl c₁,
        evaluate_expression ext fuel e c = some (Except.ok ctrl, c₁) →
        evaluate_variable_declarator ext (fuel + 1) (Declarator.mk n (some e)) c
          = some (Except.ok (),
              (c₁.orInsertCurrent n Value.undefined).insertCurrent n ctrl.to_value)) ∧
    (∀ ext fuel n c,
        evaluate_variable_declarator ext (fuel + 1) (Declarator.mk n none) c
          = some (Except.ok (), c.orInsertCurrent n Value.undefined)) ∧
    (∀ (c : Ctx) (n : String) (v : Value), c.call_stack ≠ [] →
        ((c.orInsertCurrent n Value.undefined).insertCurrent n v).currentGet n = some v) ∧
    (∀ (c : Ctx) (n : String), c.call_stack ≠ [] →
        (c.orInsertCurrent n Value.undefined).currentGet n
          = some ((c.currentGet n).getD Value.undefined)) := by
  refine ⟨?_, ?_, ?_, ?_, ?_⟩
  · intro ext fuel ds c r c' h
    cases fuel with
    | zero => cases h
    | succ f =>
        have h' : bindE ((evals ext f).eDecls ds c)
            (fun _ c₁ => pureE (EvalControl.value Value.undefined) c₁)
            = some (Except.ok r, c') := h
        cases hd : (evals ext f).eDecls ds c with
        | none => rw [hd] at h'; cases h'
        | some rc =>
            obtain ⟨res, c₂⟩ := rc
            rw [hd] at h'
            cases res with
            | error m =>
                simp [bindE] at h'
            | ok u =>
                simp [bindE, pureE] at h'
                exact h'.1.symm
  · intro ext fuel n e c ctrl c₁ h
    have h' : (evals ext fuel).eExpr e c = some (Except.ok ctrl, c₁) := h
    show bindE ((evals ext fuel).eExpr e c)
        (fun ctrl c₁ => pureE ()
          ((c₁.orInsertCurrent n Value.undefined).insertCurrent n ctrl.to_value))
      = some (Except.ok (),
          (c₁.orInsertCurrent n Value.undefined).insertCurrent n ctrl.to_value)
    rw [h']
    rfl
  · intro ext fuel n c
    rfl
  · intro c n v h
    exact insertCurrent_currentGet _ n v (orInsertCurrent_stack_ne_nil c n Value.undefined h)
  · intro c n h
    exact orInsertCurrent_currentGet c n h

/-- Witness for the C8 theorem: a declaration list on the fresh context
yields the Undefined signal; `let x = 5;` binds x to Int 5 in the current
frame; `let x;` leaves the context with the or_insert update; the lookup
facts are instantiated on a frame already binding x to Int 5. -/
theorem variable_declaration_semantics_witness :
    EvalControl.value Value.undefined = EvalControl.value Value.undefined ∧
    evaluate_variable_declarator extW 10
        (Declarator.mk "x" (some (Expr.lit (Lit.num (Number.samInt 5))))) (Ctx.new treeW)
      = some (Except.ok (),
          ((Ctx.new treeW).orInsertCurrent "x" Value.undefined).insertCurrent "x"
            (EvalControl.value (Value.samNumber (Number.samInt 5))).to_value) ∧
    evaluate_variable_declarator extW 10 (Declarator.mk "x" none) (Ctx.new treeW)
      = some (Except.ok (), (Ctx.new treeW).orInsertCurrent "x" Value.undefined) ∧
    (((Ctx.mk [[("x", Value.samNumber (Number.samInt 5))]] treeW).orInsertCurrent "x"
        Value.undefined).insertCurrent "x" (Value.samNumber (Number.samInt 7))).currentGet "x"
      = some (Value.samNumber (Number.samInt 7)) ∧
    ((Ctx.mk [[("x", Value.samNumber (Number.samInt 5))]] treeW).orInsertCurrent "x"
        Value.undefined).currentGet "x"
      = some (((Ctx.mk [[("x", Value.samNumber (Number.samInt 5))]] treeW).currentGet "x").getD
          Value.undefined) :=
  ⟨variable_declaration_semantics.1 extW 10 [] (Ctx.new treeW)
      (EvalControl.value Value.undefined) (Ctx.new treeW) rfl,
   variable_declaration_semantics.2.1 extW 9 "x" (Expr.lit (Lit.num (Number.samInt 5)))
      (Ctx.new treeW) (EvalControl.value (Value.samNumber (Number.samInt 5)))
      (Ctx.new treeW) rfl,
   variable_declaration_semantics.2.2.1 extW 9 "x" (Ctx.new treeW),
   variable_declaration_semantics.2.2.2.1 (Ctx.mk [[("x", Value.samNumber (Number.samInt 5))]] treeW)
      "x" (Value.samNumber (Number.samInt 7)) (List.cons_ne_nil _ _),
   variable_declaration_semantics.2.2.2.2 (Ctx.mk [[("x", Value.samNumber (Number.samInt 5))]] treeW)
      "x" (List.cons_ne_nil _ _)⟩

/-- C8 counterexample to the claim as stated: with x already bound to Int 5
in the current frame, the initializer-less declaration `let x;` yields the
Undefined signal but leaves x bound to Int 5 - it does not bind x to
Undefined, because entry().or_insert only inserts when the name is absent. -/
theorem var_redeclaration_keeps_binding_cex :
    evaluate_statement extW 10 (Stmt.varDecl [Declarator.mk "x" none])
        (Ctx.mk [[("x", Value.samNumber (Number.samInt 5))]] treeW)
      = some (Except.ok (EvalControl.value Value.undefined),
          Ctx.mk [[("x", Value.samNumber (Number.samInt 5))]] treeW) ∧
    (Ctx.mk [[("x", Value.samNumber (Number.samInt 5))]] treeW).currentGet "x"
      = some (Value.samNumber (Number.samInt 5)) :=
  ⟨rfl, rfl⟩

/- ===================== C9: arguments before arity ===================== -/

/-- C9: in a call expression the argument expressions are evaluated first
(extract_args, in list order, threading its context mutations), and only
then is the function-position expression resolved and the arity check
performed; when the check fails, the resulting "Argument count mismatch"
error carries the context as mutated by the argument (and function)
evaluation - the state changes persist, the error is not atomic. -/
theorem call_args_before_arity :
    ∀ ext fuel fn argEs c vs c₁ f c₂,
      extract_args ext fuel argEs c = some (Except.ok vs, c₁) →
      evaluate_expression ext fuel fn c₁
        = some (Except.ok (EvalControl.value (Value.samFunction f)), c₂) →
      vs.length ≠ f.params.length →
      evaluate_call_expression ext (fuel + 1) fn argEs c
        = some (Except.error "Argument count mismatch", c₂) := by
  intro ext fuel fn argEs c vs c₁ f c₂ hargs hfn hlen
  have hargs' : (evals ext fuel).eArgs argEs c = some (Except.ok vs, c₁) := hargs
  have hfn' : (evals ext fuel).eExpr fn c₁
      = some (Except.ok (EvalControl.value (Value.samFunction f)), c₂) := hfn
  show bindE ((evals ext fuel).eArgs argEs c) (fun vs c₁ =>
      match (evals ext fuel).eExpr fn c₁ with
      | none => none
      | some (Except.ok (EvalControl.value (Value.samFunction f)), c₂) =>
          if vs.length ≠ f.params.length then errE "Argument count mismatch" c₂
          else
            match c₂.tree f.body with
            | none => errE "Function body not found" c₂
            | some body => (evals ext fuel).eBlock body (some (f.params.zip vs)) c₂
      | some (_, c₂) => callFallback ext vs fn c₂)
    = some (Except.error "Argument count mismatch", c₂)
  rw [hargs']
  show (match (evals ext fuel).eExpr fn c₁ with
      | none => none
      | some (Except.ok (EvalControl.value (Value.samFunction f)), c₂) =>
          if vs.length ≠ f.params.length then errE "Argument count mismatch" c₂
          else
            match c₂.tree f.body with
            | none => errE "Function body not found" c₂
            | some body => (evals ext fuel).eBlock body (some (f.params.zip vs)) c₂
      | some (_, c₂) => callFallback ext vs fn c₂)
    = some (Except.error "Argument count mismatch", c₂)
  rw [hfn']
  show (if vs.length ≠ f.params.length then errE "Argument count mismatch" c₂
      else
        match c₂.tree f.body with
        | none => errE "Function body not found" c₂
        | some body => (evals ext fuel).eBlock body (some (f.params.zip vs)) c₂)
    = some (Except.error "Argument count mismatch", c₂)
  rw [if_pos hlen]
  rfl

/-- Witness for the C9 theorem: calling the two-parameter function f with
the single argument `if (1) then a block assigning y = 3` fails the arity
check, and the error state still contains the assignment y = 3 performed
while evaluating the argument. -/
theorem call_args_before_arity_witness :
    evaluate_call_expression extW 10 (Expr.ident "f")
        [Expr.ifExpr (Expr.lit (Lit.num (Number.samInt 1)))
          [Stmt.assign "y" (Expr.lit (Lit.num (Number.samInt 3)))] none]
        (Ctx.mk [[("y", Value.samNumber (Number.samInt 0)),
                  ("f", Value.samFunction ⟨7, ["a", "b"]⟩)]] treeW)
      = some (Except.error "Argument count mismatch",
          Ctx.mk [[("y", Value.samNumber (Number.samInt 3)),
                   ("f", Value.samFunction ⟨7, ["a", "b"]⟩)]] treeW) ∧
    (Ctx.mk [[("y", Value.samNumber (Number.samInt 3)),
              ("f", Value.samFunction ⟨7, ["a", "b"]⟩)]] treeW).currentGet "y"
      = some (Value.samNumber (Number.samInt 3)) :=
  ⟨call_args_before_arity extW 9 (Expr.ident "f")
      [Expr.ifExpr (Expr.lit (Lit.num (Number.samInt 1)))
        [Stmt.assign "y" (Expr.lit (Lit.num (Number.samInt 3)))] none]
      (Ctx.mk [[("y", Value.samNumber (Number.samInt 0)),
                ("f", Value.samFunction ⟨7, ["a", "b"]⟩)]] treeW)
      [Value.undefined]
      (Ctx.mk [[("y", Value.samNumber (Number.samInt 3)),
                ("f", Value.samFunction ⟨7, ["a", "b"]⟩)]] treeW)
      ⟨7, ["a", "b"]⟩
      (Ctx.mk [[("y", Value.samNumber (Number.samInt 3)),
                ("f", Value.samFunction ⟨7, ["a", "b"]⟩)]] treeW)
      rfl rfl (by decide),
   rfl⟩

/- ===================== C10: call fallback dispatch ===================== -/

/-- C10: when the function position of a call expression is a bare
identifier whose evaluation does not produce a Function value - whether it
errors (the error is discarded) or yields any other value - the call does
not fault on the callee: it dispatches through FFI::call when the global
frame binds the name to a ForeignFunction, and otherwise through
Shell::call as a literal shell-command invocation of that name. -/
theorem call_fallback_dispatch :
    (∀ ext fuel name argEs c vs c₁ r c₂ ff,
        extract_args ext fuel argEs c = some (Except.ok vs, c₁) →
        evaluate_expression ext fuel (Expr.ident name) c₁ = some (r, c₂) →
        (∀ f, r ≠ Except.ok (EvalControl.value (Value.samFunction f))) →
        c₂.globalGet name = some (Value.samForeignFunction ff) →
        evaluate_call_expression ext (fuel + 1) (Expr.ident name) argEs c
          = (match FFI.call ext ff vs with
             | none => none
             | some (Except.ok v) => pureE (EvalControl.value v) c₂
             | some (Except.error m) => errE m c₂)) ∧
    (∀ ext fuel name argEs c vs c₁ r c₂,
        extract_args ext fuel argEs c = some (Except.ok vs, c₁) →
        evaluate_expression ext fuel (Expr.ident name) c₁ = some (r, c₂) →
        (∀ f, r ≠ Except.ok (EvalControl.value (Value.samFunction f))) →
        (∀ ff, c₂.globalGet name ≠ some (Value.samForeignFunction ff)) →
        evaluate_call_expression ext (fuel + 1) (Expr.ident name) argEs c
          = (match Shell.call ext name vs with
             | Except.ok v => pureE (EvalControl.value v) c₂
             | Except.error m => errE m c₂)) := by
  have main : ∀ ext fuel name argEs c vs c₁ r c₂,
      extract_args ext fuel argEs c = some (Except.ok vs, c₁) →
      evaluate_expression ext fuel (Expr.ident name) c₁ = some (r, c₂) →
      (∀ f, r ≠ Except.ok (EvalControl.value (Value.samFunction f))) →
      evaluate_call_expression ext (fuel + 1) (Expr.ident name) argEs c
        = callFallback ext vs (Expr.ident name) c₂ := by
    intro ext fuel name argEs c vs c₁ r c₂ hargs hfn hne
    have hargs' : (evals ext fuel).eArgs argEs c = some (Except.ok vs, c₁) := hargs
    have hfn' : (evals ext fuel).eExpr (Expr.ident name) c₁ = some (r, c₂) := hfn
    show bindE ((evals ext fuel).eArgs argEs c) (fun vs c₁ =>
        match (evals ext fuel).eExpr (Expr.ident name) c₁ with
        | none => none
        | some (Except.ok (EvalControl.value (Value.samFunction f)), c₂) =>
            if vs.length ≠ f.params.length then errE "Argument count mismatch" c₂
            else
              match c₂.tree f.body with
              | none => errE "Function body not found" c₂
              | some body => (evals ext fuel).eBlock body (some (f.params.zip vs)) c₂
        | some (_, c₂) => callFallback ext vs (Expr.ident name) c₂)
      = callFallback ext vs (Expr.ident name) c₂
    rw [hargs']
    show (match (evals ext fuel).eExpr (Expr.ident name) c₁ with
        | none => none
        | some (Except.ok (EvalControl.value (Value.samFunction f)), c₂) =>
            if vs.length ≠ f.params.length then errE "Argument count mismatch" c₂
            else
              match c₂.tree f.body with
              | none => errE "Function body not found" c₂
              | some body => (evals ext fuel).eBlock body (some (f.params.zip vs)) c₂
        | some (_, c₂) => callFallback ext vs (Expr.ident name) c₂)
      = callFallback ext vs (Expr.ident name) c₂
    rw [hfn']
    cases r with
    | error m => rfl
    | ok ctrl =>
        cases ctrl with
        | ret v => rfl
        | value v =>
            cases v with
            | samFunction f => exact absurd rfl (hne f)
            | samNumber n => rfl
            | samString s => rfl
            | samForeignFunction ff => rfl
            | samArray a => rfl
            | samObject o => rfl
            | undefined => rfl
  constructor
  · intro ext fuel name argEs c vs c₁ r c₂ ff hargs hfn hne hglob
    rw [main ext fuel name argEs c vs c₁ r c₂ hargs hfn hne]
    show (match c₂.globalGet name with
        | some (Value.samForeignFunction ff) =>
            match FFI.call ext ff vs with
            | none => none
            | some (Except.ok v) => pureE (EvalControl.value v) c₂
            | some (Except.error m) => errE m c₂
        | _ =>
            match Shell.call ext name vs with
            | Except.ok v => pureE (EvalControl.value v) c₂
            | Except.error m => errE m c₂)
      = (match FFI.call ext ff vs with
         | none => none
         | some (Except.ok v) => pureE (EvalControl.value v) c₂
         | some (Except.error m) => errE m c₂)
    rw [hglob]
  · intro ext fuel name argEs c vs c₁ r c₂ hargs hfn hne hglob
    rw [main ext fuel name argEs c vs c₁ r c₂ hargs hfn hne]
    show (match c₂.globalGet name with
        | some (Value.samForeignFunction ff) =>
            match FFI.call ext ff vs with
            | none => none
            | some (Except.ok v) => pureE (EvalControl.value v) c₂
            | some (Except.error m) => errE m c₂
        | _ =>
            match Shell.call ext name vs with
            | Except.ok v => pureE (EvalControl.value v) c₂
            | Except.error m => errE m c₂)
      = (match Shell.call ext name vs with
         | Except.ok v => pureE (EvalControl.value v) c₂
         | Except.error m => errE m c₂)
    cases hg : c₂.globalGet name with
    | none => rfl
    | some w =>
        cases w with
        | samForeignFunction ff => exact absurd hg (hglob ff)
        | samNumber n => rfl
        | samString s => rfl
        | samFunction f => rfl
        | samArray a => rfl
        | samObject o => rfl
        | undefined => rfl

/-- Witness for the C10 theorem: calling sf() where sf is globally bound to
a ForeignFunction dispatches through FFI::call (the identifier's value is a
ForeignFunction, not a Function); calling unbound() where the identifier is
not defined (its evaluation error is discarded) dispatches through
Shell::call. -/
theorem call_fallback_dispatch_witness :
    evaluate_call_expression extW 10 (Expr.ident "sf") []
        (Ctx.mk [[("sf", Value.samForeignFunction ⟨"echo"⟩)]] treeW)
      = (match FFI.call extW ⟨"echo"⟩ [] with
         | none => none
         | some (Except.ok v) => pureE (EvalControl.value v)
             (Ctx.mk [[("sf", Value.samForeignFunction ⟨"echo"⟩)]] treeW)
         | some (Except.error m) => errE m
             (Ctx.mk [[("sf", Value.samForeignFunction ⟨"echo"⟩)]] treeW)) ∧
    evaluate_call_expression extW 10 (Expr.ident "unbound") [] (Ctx.new treeW)
      = (match Shell.call extW "unbound" [] with
         | Except.ok v => pureE (EvalControl.value v) (Ctx.new treeW)
         | Except.error m => errE m (Ctx.new treeW)) :=
  ⟨call_fallback_dispatch.1 extW 9 "sf" []
      (Ctx.mk [[("sf", Value.samForeignFunction ⟨"echo"⟩)]] treeW) []
      (Ctx.mk [[("sf", Value.samForeignFunction ⟨"echo"⟩)]] treeW)
      (Except.ok (EvalControl.value (Value.samForeignFunction ⟨"echo"⟩)))
      (Ctx.mk [[("sf", Value.samForeignFunction ⟨"echo"⟩)]] treeW)
      ⟨"echo"⟩ rfl rfl
      (fun f h => by
        injection h with h1
        injection h1 with h2
        injection h2)
      rfl,
   call_fallback_dispatch.2 extW 9 "unbound" [] (Ctx.new treeW) []
      (Ctx.new treeW) (Except.error "Variable unbound not defined") (Ctx.new treeW)
      rfl rfl
      (fun f h => by injection h)
      (fun ff h => by injection h)⟩

end Sam
